import Mathlib

/-!
Shallow embedding of the Maestra orchestral synthesiser core
(src/src/Engine/OrchestraSynthEngine.h, src/src/DSP/ConvolutionEngine.h,
src/src/DSP/Oversampler.h, src/src/Systems/PresetManager.h).

C++ floats and doubles are modelled as exact rationals (no transformation is
applied to them anywhere in the modelled code paths, so float rounding is
irrelevant to the claims).  External library functions (std::sin, std::cos,
the JUCE lowpass filter, ADSR envelope and note-to-frequency table) are
abstracted as parameters of the model, bundled in the ExtDSP structure.
-/

set_option maxRecDepth 4096

-- =========================================================
-- Constants (OrchestraSynthEngine.h lines 18-23)
-- =========================================================

def numSections : ℤ := 5

def numArticulations : ℤ := 3

def articulationKeyswitchBaseNote : ℤ := 24

-- clamp as in juce::jlimit (value below lower -> lower, above upper -> upper)
def jlimitQ (lo hi x : ℚ) : ℚ := if x < lo then lo else if hi < x then hi else x

def jlimitI (lo hi x : ℤ) : ℤ := if x < lo then lo else if hi < x then hi else x

-- =========================================================
-- Data model
-- =========================================================

/-- OrchestraSynthEngine::SectionParams (lines 26-42). -/
structure SectionParams where
  gain : ℚ := 4/5
  pan : ℚ := 0
  cutoff : ℚ := 12000
  resonance : ℚ := 7/10
  attackMs : ℚ := 5
  releaseMs : ℚ := 200
  reverbSend : ℚ := 3/10
  oversampleFactor : ℚ := 2
  maxVoices : ℤ := 32
  articulationIndex : ℤ := 0
deriving DecidableEq

/-- OrchestraSynthEngine::ArticulationParams (lines 247-256). -/
structure ArticulationParams where
  attackMs : ℚ := 5
  decayMs : ℚ := 50
  sustain : ℚ := 4/5
  releaseMs : ℚ := 200
  filterCutoff : ℚ := 12000
  filterResonance : ℚ := 7/10
deriving DecidableEq

instance : Inhabited ArticulationParams := ⟨{}⟩

/-- SectionVoice state (member fields, lines 438-449, plus the activity flag
that juce::SynthesiserVoice keeps as currentlyPlayingNote and two fields,
envLevel and age, standing for the envelope output level and the time the
voice has been active, which drive the spec's stealing policy). -/
structure VoiceState where
  active : Bool := false
  releasing : Bool := false
  currentMidiNote : ℤ := 60
  currentVelocity : ℚ := 1
  sampleRate : ℚ := 44100
  phase : ℚ := 0
  level : ℚ := 0
  panLeft : ℚ := 1
  panRight : ℚ := 1
  adsrAttack : ℚ := 0
  adsrDecay : ℚ := 0
  adsrSustain : ℚ := 1
  adsrRelease : ℚ := 0
  filterCutoff : ℚ := 12000
  filterResonance : ℚ := 7/10
  envLevel : ℚ := 0
  age : ℕ := 0
deriving DecidableEq

instance : Inhabited VoiceState := ⟨{}⟩

/-- A channel-voice MIDI message as consumed by splitMidiBySection. -/
inductive MidiMsg
  | noteOn (channel note : ℤ) (velocity : ℚ)
  | noteOff (channel note : ℤ) (velocity : ℚ)
  | other (channel : ℤ)
deriving DecidableEq

/-- juce::MidiMessage::getChannel. -/
def MidiMsg.channel : MidiMsg → ℤ
  | .noteOn c _ _ => c
  | .noteOff c _ _ => c
  | .other c => c

/-- One MidiBuffer entry: message plus sample position within the block. -/
structure TimedEvent where
  msg : MidiMsg
  samplePosition : ℤ
deriving DecidableEq

/-- The three articulation presets installed per section by
OrchestraSynthEngine::initialiseArticulations (lines 452-475):
0 = sustain, 1 = staccato, 2 = legato. -/
def defaultArticulations : List ArticulationParams :=
  [ { attackMs := 10, decayMs := 60, sustain := 9/10, releaseMs := 250,
      filterCutoff := 12000, filterResonance := 7/10 },
    { attackMs := 2, decayMs := 15, sustain := 3/5, releaseMs := 80,
      filterCutoff := 8000, filterResonance := 9/10 },
    { attackMs := 30, decayMs := 80, sustain := 19/20, releaseMs := 400,
      filterCutoff := 10000, filterResonance := 3/5 } ]

/-- OrchestraSynthEngine::SectionRuntime (lines 258-264): the voice pool of
the juce::Synthesiser, the per-section MIDI queue, the articulation table and
the live articulation index. -/
structure SectionRuntime where
  pool : List VoiceState := []
  queue : List TimedEvent := []
  articulations : List ArticulationParams := defaultArticulations
  currentArticulationIndex : ℤ := 0
deriving DecidableEq

instance : Inhabited SectionRuntime := ⟨{}⟩

/-- ConvolutionEngine state (ConvolutionEngine.h): the prepared flag, and
whether an impulse response has been installed into the convolution.
loadImpulseResponse decodes a file and then discards the buffer
(ConvolutionEngine.h lines 29-34), so irLoaded is never set by the code. -/
structure ConvolutionState where
  prepared : Bool := false
  irLoaded : Bool := false
deriving DecidableEq

/-- Engine state: OrchestraSynthEngine members (lines 522-535). -/
structure EngineState where
  sectionParams : Fin 5 → SectionParams
  sectionRuntime : Fin 5 → SectionRuntime
  convolution : ConvolutionState
  oversamplerPrepared : Bool
  internalSampleRate : ℚ
  lastBlockSize : ℤ
  lastMidiCount : ℤ

/-- The state right after the OrchestraSynthEngine constructor (lines 50-67):
Strings get 48 voices, the other four sections 32; articulations installed;
nothing prepared yet, no voice objects exist until prepare(). -/
def initialEngine : EngineState :=
  { sectionParams := fun si => if si = (0 : Fin 5) then { maxVoices := 48 } else {}
    sectionRuntime := fun _ => {}
    convolution := {}
    oversamplerPrepared := false
    internalSampleRate := 44100
    lastBlockSize := 512
    lastMidiCount := 0 }

def setRuntime (st : EngineState) (si : Fin 5) (rt : SectionRuntime) : EngineState :=
  { st with sectionRuntime := fun j => if j = si then rt else st.sectionRuntime j }

def setParams (st : EngineState) (si : Fin 5) (p : SectionParams) : EngineState :=
  { st with sectionParams := fun j => if j = si then p else st.sectionParams j }

-- =========================================================
-- MIDI router: OrchestraSynthEngine::splitMidiBySection (lines 477-516)
-- =========================================================

/-- One iteration of the event loop of splitMidiBySection (lines 484-512). -/
def splitStep (st : EngineState) (e : TimedEvent) : EngineState :=
  let channel := e.msg.channel
  let sectionIndex := channel - 1
  if h : 0 ≤ sectionIndex ∧ sectionIndex < numSections then
    let si : Fin 5 := ⟨sectionIndex.toNat, by
      have h1 := h.1; have h2 := h.2; simp only [numSections] at h2; omega⟩
    let rt := st.sectionRuntime si
    match e.msg with
    | .noteOn _ note _ =>
        let relative := note - articulationKeyswitchBaseNote
        if 0 ≤ relative ∧ relative < numArticulations then
          setRuntime st si { rt with currentArticulationIndex := relative }
        else
          setRuntime st si { rt with queue := rt.queue ++ [e] }
    | _ => setRuntime st si { rt with queue := rt.queue ++ [e] }
  else st

/-- splitMidiBySection: clear the five queues, route every event, count the
events, and drain the input buffer (returned as the second component). -/
def splitMidiBySection (st : EngineState) (midi : List TimedEvent) :
    EngineState × List TimedEvent :=
  let st0 : EngineState :=
    { st with sectionRuntime := fun j => { st.sectionRuntime j with queue := [] } }
  let st1 := midi.foldl splitStep st0
  ({ st1 with lastMidiCount := midi.length }, [])

/-- An event is consumed as an articulation keyswitch when it is a note-on
whose note lies in [base, base + numArticulations) (lines 499-509). -/
def isKeyswitchOn : MidiMsg → Bool
  | .noteOn _ note _ =>
      decide (0 ≤ note - articulationKeyswitchBaseNote ∧
              note - articulationKeyswitchBaseNote < numArticulations)
  | _ => false

/-- The router forwards event e to section si when the channel maps to si and
the event is not consumed as a keyswitch. -/
def routedTo (si : Fin 5) (e : TimedEvent) : Bool :=
  decide (e.msg.channel - 1 = (si : ℤ)) && !(isKeyswitchOn e.msg)

-- =========================================================
-- Persistence: serialise / deserialise (lines 181-240) and PresetManager
-- =========================================================

/-- A juce::var value as stored by the serialiser: ints and floats. -/
inductive VTValue
  | vInt (i : ℤ)
  | vFloat (q : ℚ)
deriving DecidableEq

/-- Cast of a stored var to int ((int) in C++, truncation toward zero). -/
def VTValue.toInt : VTValue → ℤ
  | .vInt i => i
  | .vFloat q => if q < 0 then -(Int.floor (-q)) else Int.floor q

/-- Cast of a stored var to float. -/
def VTValue.toFloat : VTValue → ℚ
  | .vInt i => (i : ℚ)
  | .vFloat q => q

/-- One named child of the serialised tree with its property list. -/
structure VTChild where
  name : String
  props : List (String × VTValue)
deriving DecidableEq

/-- The tree handed to serialiseToValueTree: a list of named children. -/
abbrev VTree := List VTChild

/-- juce::ValueTree::getChildWithName: the first child with the given name. -/
def getChildWithName (t : VTree) (id : String) : Option VTChild :=
  t.find? (fun c => c.name == id)

/-- Raw property lookup (present or absent). -/
def lookupProp (c : VTChild) (key : String) : Option VTValue :=
  (c.props.find? (fun kv => kv.1 == key)).map (fun kv => kv.2)

/-- juce::ValueTree::getProperty with a default value, int cast. -/
def getPropInt (c : VTChild) (key : String) (d : ℤ) : ℤ :=
  match lookupProp c key with
  | some v => v.toInt
  | none => d

/-- juce::ValueTree::getProperty with a default value, float cast. -/
def getPropFloat (c : VTChild) (key : String) (d : ℚ) : ℚ :=
  match lookupProp c key with
  | some v => v.toFloat
  | none => d

/-- The stable per-section record key (the switch at lines 185-194). -/
def sectionName (si : Fin 5) : String :=
  if si = 0 then "strings"
  else if si = 1 then "brass"
  else if si = 2 then "woodwinds"
  else if si = 3 then "percussion"
  else "choir"

/-- The per-section record written by serialiseToValueTree (lines 196-210),
with the properties in source order. -/
def serialiseSection (p : SectionParams) (nm : String) : VTChild :=
  { name := nm
    props :=
      [ ("maxVoices", .vInt p.maxVoices),
        ("gain", .vFloat p.gain),
        ("pan", .vFloat p.pan),
        ("cutoff", .vFloat p.cutoff),
        ("resonance", .vFloat p.resonance),
        ("attackMs", .vFloat p.attackMs),
        ("releaseMs", .vFloat p.releaseMs),
        ("reverbSend", .vFloat p.reverbSend),
        ("oversampleFactor", .vFloat p.oversampleFactor),
        ("articulationIndex", .vInt p.articulationIndex) ] }

/-- OrchestraSynthEngine::serialiseToValueTree (lines 181-212), the section
loop unrolled in its execution order. -/
def serialiseToValueTree (st : EngineState) : VTree :=
  [ serialiseSection (st.sectionParams 0) "strings",
    serialiseSection (st.sectionParams 1) "brass",
    serialiseSection (st.sectionParams 2) "woodwinds",
    serialiseSection (st.sectionParams 3) "percussion",
    serialiseSection (st.sectionParams 4) "choir" ]

/-- The field block of the loadSection lambda (lines 223-232): each property
read with the current field value as the default. -/
def applySectionRecord (t : VTChild) (p : SectionParams) : SectionParams :=
  { maxVoices := getPropInt t "maxVoices" p.maxVoices
    gain := getPropFloat t "gain" p.gain
    pan := getPropFloat t "pan" p.pan
    cutoff := getPropFloat t "cutoff" p.cutoff
    resonance := getPropFloat t "resonance" p.resonance
    attackMs := getPropFloat t "attackMs" p.attackMs
    releaseMs := getPropFloat t "releaseMs" p.releaseMs
    reverbSend := getPropFloat t "reverbSend" p.reverbSend
    oversampleFactor := getPropFloat t "oversampleFactor" p.oversampleFactor
    articulationIndex := getPropInt t "articulationIndex" p.articulationIndex }

/-- The loadSection lambda of deserialiseFromValueTree (lines 216-233):
absent child record leaves the section untouched; every property defaults to
the current field value. -/
def loadSection (idx : Fin 5) (id : String) (src : VTree) (st : EngineState) :
    EngineState :=
  match getChildWithName src id with
  | none => st
  | some t => setParams st idx (applySectionRecord t (st.sectionParams idx))

/-- OrchestraSynthEngine::deserialiseFromValueTree (lines 214-240), the five
loadSection calls in source order. -/
def deserialiseFromValueTree (src : VTree) (st : EngineState) : EngineState :=
  loadSection 4 "choir" src
    (loadSection 3 "percussion" src
      (loadSection 2 "woodwinds" src
        (loadSection 1 "brass" src
          (loadSection 0 "strings" src st))))

/-- A stored preset (PresetManager.h lines 18-28): the preset tree holds the
name and a sections child that receives the serialised records. -/
structure PresetRecord where
  presetName : String
  sections : VTree
deriving DecidableEq

/-- The NamedValueSet of PresetManager, as an association list. -/
abbrev PresetStore := List (String × PresetRecord)

/-- juce::NamedValueSet::setProperty: replace an existing entry, else append. -/
def storeSet (pm : PresetStore) (name : String) (r : PresetRecord) : PresetStore :=
  if (List.find? (fun kv => kv.1 == name) pm).isSome then
    List.map (fun kv => if kv.1 == name then (kv.1, r) else kv) pm
  else pm ++ [(name, r)]

/-- PresetManager::savePreset (lines 18-28). -/
def savePreset (name : String) (st : EngineState) (pm : PresetStore) : PresetStore :=
  storeSet pm name { presetName := name, sections := serialiseToValueTree st }

/-- PresetManager::loadPreset (lines 30-40): unknown names are a no-op. -/
def loadPreset (name : String) (pm : PresetStore) (st : EngineState) : EngineState :=
  match List.find? (fun kv => kv.1 == name) pm with
  | none => st
  | some kv => deserialiseFromValueTree kv.2.sections st

-- =========================================================
-- External DSP functions, abstracted as parameters
-- =========================================================

/-- A stereo audio buffer: one (left, right) pair per sample. -/
abbrev Buf := List (ℚ × ℚ)

/-- External library functions used by the render path, kept abstract:
std::sin and std::cos, the two pi constants, the JUCE MIDI-note-to-Hz table
(12-TET, A4 = 440 Hz, juce::MidiMessage::getMidiNoteInHertz), the
StateVariableTPT lowpass filter as a buffer transform parameterised by cutoff
and resonance, the juce::ADSR envelope output stream for a given voice, the
envelope activity test after a block, the convolution with a loaded impulse
response, and the oversampling up/down resampling pair. -/
structure ExtDSP where
  sinF : ℚ → ℚ
  cosF : ℚ → ℚ
  twoPi : ℚ
  halfPi : ℚ
  midiHz : ℤ → ℚ
  filterF : ℚ → ℚ → List ℚ → List ℚ
  envF : VoiceState → ℕ → ℚ
  adsrActiveAfter : VoiceState → ℕ → Bool
  convWithIR : Buf → Buf
  osUp : Buf → Buf
  osDown : Buf → Buf

-- =========================================================
-- SectionVoice (OrchestraSynthEngine.h lines 282-450)
-- =========================================================

/-- SectionVoice::getCurrentArticulation (lines 402-408): the live index,
clamped to [0, numArticulations - 1] before indexing the table. -/
def getCurrentArticulation (rt : SectionRuntime) : ArticulationParams :=
  let idx := jlimitI 0 (numArticulations - 1) rt.currentArticulationIndex
  rt.articulations.getD idx.toNat default

/-- SectionVoice::startNote (lines 302-326): store the note, configure the
ADSR and the filter from the articulation preset, precompute
level = gain * clamp(velocity, 0, 1) and the pan gains
(updatePanGains, lines 426-432). -/
def SectionVoice.startNote (dsp : ExtDSP) (p : SectionParams)
    (art : ArticulationParams) (midiNoteNumber : ℤ) (velocity : ℚ)
    (v : VoiceState) : VoiceState :=
  let panC := jlimitQ (-1) 1 p.pan
  let angle := (panC + 1) * dsp.halfPi * (1/2)
  { v with
    currentMidiNote := midiNoteNumber
    currentVelocity := velocity
    adsrAttack := art.attackMs * (1/1000)
    adsrDecay := art.decayMs * (1/1000)
    adsrSustain := art.sustain
    adsrRelease := art.releaseMs * (1/1000)
    filterCutoff := art.filterCutoff
    filterResonance := art.filterResonance
    level := p.gain * jlimitQ 0 1 velocity
    panLeft := dsp.cosF angle
    panRight := dsp.sinF angle
    releasing := false }

/-- The mono sample loop of SectionVoice::renderNextBlock (lines 360-367):
sample n is 0.5 * (sin(2 pi f t) + sin(2 pi (f * 1.01) t)) with
t = (phase + n) / sampleRate. -/
def voiceMono (dsp : ExtDSP) (freq sr phase : ℚ) (numSamples : ℕ) : List ℚ :=
  (List.range numSamples).map (fun (n : ℕ) =>
    let t := (phase + (n : ℚ)) / sr
    (1/2) * (dsp.sinF (dsp.twoPi * freq * t) +
             dsp.sinF (dsp.twoPi * (freq * (101/100)) * t)))

/-- juce::ADSR::applyEnvelopeToBuffer: multiply sample k by the envelope
value at step k, starting from step n0. -/
def applyEnvFrom (env : ℕ → ℚ) : ℕ → List ℚ → List ℚ
  | _, [] => []
  | n0, a :: rest => a * env n0 :: applyEnvFrom env (n0 + 1) rest

/-- The accumulation loop of renderNextBlock (lines 386-392):
left[n] += (mono[n] * level) * panLeft, right likewise. -/
def accumulateSamples (level panL panR : ℚ) : List ℚ → Buf → Buf
  | _, [] => []
  | [], out => out
  | s :: ss, lr :: rest =>
      (lr.1 + s * level * panL, lr.2 + s * level * panR) ::
        accumulateSamples level panL panR ss rest

/-- SectionVoice::renderNextBlock (lines 344-393), called with
startSample = 0 and numSamples = the output buffer length: inactive voices
return immediately; otherwise build the detuned-sine mono buffer, filter it,
apply the envelope, and either self-deactivate (envelope finished) or add the
scaled result into the output. -/
def SectionVoice.renderNextBlock (dsp : ExtDSP) (v : VoiceState) (out : Buf) :
    VoiceState × Buf :=
  if v.active = false then (v, out)
  else
    let numSamples := out.length
    let sr := if 0 < v.sampleRate then v.sampleRate else 44100
    let freq := dsp.midiHz v.currentMidiNote
    let mono := voiceMono dsp freq sr v.phase numSamples
    let v1 := { v with phase := v.phase + (numSamples : ℚ) }
    let filtered := dsp.filterF v.filterCutoff v.filterResonance mono
    let shaped := applyEnvFrom (dsp.envF v) 0 filtered
    if dsp.adsrActiveAfter v numSamples = false then
      ({ v1 with active := false, releasing := false }, out)
    else
      (v1, accumulateSamples v.level v.panLeft v.panRight shaped out)

-- =========================================================
-- Voice pool of one section.
-- Modelled from the spec: the juce::Synthesiser voice allocation
-- (findFreeVoice / startVoice / noteOff) is library code outside src;
-- spec section 4.2 fixes its contract: scan for a free voice, else steal the
-- active voice with the lowest envelope output, falling back to the voice
-- active longest, and reassign it to the new note.
-- =========================================================

/-- Index of the first inactive voice, scan order (spec 4.2). -/
def firstInactive : List VoiceState → Option ℕ
  | [] => none
  | v :: vs =>
      if v.active = false then some 0
      else (firstInactive vs).map (· + 1)

/-- Modelled from the spec: pick the steal victim, the voice with the lowest
envelope output level, ties broken toward the voice active longest. -/
def stealFold (i bi : ℕ) (bv : VoiceState) : List VoiceState → ℕ
  | [] => bi
  | v :: vs =>
      if v.envLevel < bv.envLevel ∨ (v.envLevel = bv.envLevel ∧ bv.age < v.age)
      then stealFold (i + 1) i v vs
      else stealFold (i + 1) bi bv vs

/-- Modelled from the spec: the steal victim index in the pool. -/
def stealIdx : List VoiceState → ℕ
  | [] => 0
  | v :: vs => stealFold 1 0 v vs

/-- Starting a voice: the Synthesiser marks the voice as playing and calls
SectionVoice::startNote with the section parameters and the live
articulation preset. -/
def startVoice (dsp : ExtDSP) (p : SectionParams) (art : ArticulationParams)
    (note : ℤ) (vel : ℚ) (v : VoiceState) : VoiceState :=
  { SectionVoice.startNote dsp p art note vel v with
      active := true, age := 0, envLevel := 0 }

/-- Modelled from the spec: note-on handling of the section synthesiser with
stealing enabled (setNoteStealingEnabled(true), line 98): use the first free
voice, else steal. -/
def poolNoteOn (dsp : ExtDSP) (p : SectionParams) (rt : SectionRuntime)
    (note : ℤ) (vel : ℚ) (pool : List VoiceState) : List VoiceState :=
  let art := getCurrentArticulation rt
  match firstInactive pool with
  | some i => pool.set i (startVoice dsp p art note vel (pool.getD i default))
  | none =>
      let j := stealIdx pool
      pool.set j (startVoice dsp p art note vel (pool.getD j default))

/-- Modelled from the spec: note-off moves matching voices to the release
stage (SectionVoice::stopNote with allowTailOff, lines 328-339); the voice
stays active until its envelope completes. -/
def poolNoteOff (note : ℤ) (pool : List VoiceState) : List VoiceState :=
  pool.map (fun v =>
    if v.active && decide (v.currentMidiNote = note)
    then { v with releasing := true } else v)

/-- Modelled from the spec: one queued event handled by the synthesiser. -/
def handleSynthEvent (dsp : ExtDSP) (p : SectionParams) (rt : SectionRuntime)
    (pool : List VoiceState) (e : TimedEvent) : List VoiceState :=
  match e.msg with
  | .noteOn _ note vel => poolNoteOn dsp p rt note vel pool
  | .noteOff _ note _ => poolNoteOff note pool
  | .other _ => pool

/-- Render every voice of the pool in order, accumulating into the buffer. -/
def renderPool (dsp : ExtDSP) : List VoiceState → Buf → List VoiceState × Buf
  | [], buf => ([], buf)
  | v :: vs, buf =>
      let r := SectionVoice.renderNextBlock dsp v buf
      let rest := renderPool dsp vs r.2
      (r.1 :: rest.1, rest.2)

/-- Modelled from the spec: juce::Synthesiser::renderNextBlock for one
section (called at line 145): apply the queued MIDI events, then render the
voices into the shared buffer. -/
def synthRenderNextBlock (dsp : ExtDSP) (p : SectionParams)
    (rt : SectionRuntime) (buf : Buf) : SectionRuntime × Buf :=
  let pool1 := rt.queue.foldl (handleSynthEvent dsp p rt) rt.pool
  let r := renderPool dsp pool1 buf
  ({ rt with pool := r.1 }, r.2)

/-- The number of currently active voices in a pool. -/
def countActive (pool : List VoiceState) : ℕ :=
  pool.countP (fun v => v.active)

-- =========================================================
-- Post-processing stages
-- =========================================================

/-- ConvolutionEngine::process (ConvolutionEngine.h lines 36-44): early out
when unprepared.  Modelled from the spec: juce::dsp::Convolution with no
impulse response loaded is a passthrough, never an error. -/
def ConvolutionEngine.process (dsp : ExtDSP) (c : ConvolutionState) (buf : Buf) :
    Buf :=
  if c.prepared = false then buf
  else if c.irLoaded then dsp.convWithIR buf
  else buf

/-- ConvolutionEngine::loadImpulseResponse (lines 29-34): the decoded buffer
is discarded (juce::ignoreUnused), so the convolution state is unchanged. -/
def ConvolutionEngine.loadImpulseResponse (c : ConvolutionState) :
    ConvolutionState := c

/-- Modelled from the spec: Oversampler::beginOversampledBlock is called by
processBlock (line 138) but defined nowhere in src; spec 4.5 makes the
oversampling wrapper a no-op before prepare() and on empty blocks, and a
pure resampling hook otherwise.  The begin half only opens the block. -/
def beginOversampledBlock (prepared : Bool) (buf : Buf) : Buf :=
  if prepared = false then buf else buf

/-- Modelled from the spec: Oversampler::endOversampledBlock (called at
line 152, defined nowhere in src): upsample and downsample the bus through
the halfband filters when prepared and the block is nonempty, preserving the
block length; a no-op before prepare() and when numSamples == 0. -/
def endOversampledBlock (dsp : ExtDSP) (prepared : Bool) (buf : Buf) : Buf :=
  if prepared = false then buf
  else if buf.length = 0 then buf
  else dsp.osDown (dsp.osUp buf)

-- =========================================================
-- Engine lifecycle (prepare / reset / processBlock, lines 78-155)
-- =========================================================

/-- OrchestraSynthEngine::prepare (lines 78-114): prepare the two
post-processing stages, store the sample rate, rebuild each section's voice
pool with maxVoices fresh voices at the new sample rate. -/
def prepareEngine (sampleRate : ℚ) (samplesPerBlock : ℤ) (st : EngineState) :
    EngineState :=
  { st with
    convolution := { st.convolution with prepared := true }
    oversamplerPrepared := true
    internalSampleRate := sampleRate
    lastBlockSize := samplesPerBlock
    sectionRuntime := fun si =>
      { st.sectionRuntime si with
          pool := List.replicate (st.sectionParams si).maxVoices.toNat
            { (default : VoiceState) with sampleRate := sampleRate } } }

/-- OrchestraSynthEngine::reset (lines 116-123): allNotesOff without tails
deactivates every voice (stopNote(_, false) clears the note). -/
def resetEngine (st : EngineState) : EngineState :=
  { st with
    sectionRuntime := fun si =>
      { st.sectionRuntime si with
          pool := (st.sectionRuntime si).pool.map
            (fun v => { v with active := false, releasing := false }) } }

/-- The section render loop of processBlock (lines 140-149), unrolled in
execution order over the five sections. -/
def renderSectionAt (dsp : ExtDSP) (si : Fin 5) (acc : EngineState × Buf) :
    EngineState × Buf :=
  let r := synthRenderNextBlock dsp (acc.1.sectionParams si)
            (acc.1.sectionRuntime si) acc.2
  (setRuntime acc.1 si r.1, r.2)

/-- OrchestraSynthEngine::processBlock (lines 129-155): split the MIDI by
section, clear the output buffer, render the five sections into it, run the
convolution stage, close the oversampled block; the input MIDI buffer is
fully drained. -/
def processBlock (dsp : ExtDSP) (st : EngineState) (buffer : Buf)
    (midi : List TimedEvent) : EngineState × Buf × List TimedEvent :=
  let s := splitMidiBySection st midi
  let buf0 : Buf := buffer.map (fun _ => ((0 : ℚ), (0 : ℚ)))
  let buf1 := beginOversampledBlock s.1.oversamplerPrepared buf0
  let r := renderSectionAt dsp 4 (renderSectionAt dsp 3 (renderSectionAt dsp 2
            (renderSectionAt dsp 1 (renderSectionAt dsp 0 (s.1, buf1)))))
  let buf3 := ConvolutionEngine.process dsp r.1.convolution r.2
  let buf4 := endOversampledBlock dsp r.1.oversamplerPrepared buf3
  (r.1, buf4, s.2)

-- =========================================================
-- A concrete instantiation of the external DSP functions, used by witnesses
-- =========================================================

def trivDSP : ExtDSP :=
  { sinF := id
    cosF := id
    twoPi := 6
    halfPi := 3/2
    midiHz := fun _ => 440
    filterF := fun _ _ l => l
    envF := fun _ _ => 1
    adsrActiveAfter := fun _ _ => true
    convWithIR := id
    osUp := id
    osDown := id }

/-- The engine states reachable through the public API: construction,
prepare, reset, processBlock, setSectionParams, loadPreset (which covers
deserialise). -/
inductive Reachable : EngineState → Prop
  | init : Reachable initialEngine
  | prepare (sr : ℚ) (bs : ℤ) {st : EngineState} :
      Reachable st → Reachable (prepareEngine sr bs st)
  | reset {st : EngineState} : Reachable st → Reachable (resetEngine st)
  | block (dsp : ExtDSP) (buffer : Buf) (midi : List TimedEvent)
      {st : EngineState} :
      Reachable st → Reachable (processBlock dsp st buffer midi).1
  | setSection (si : Fin 5) (p : SectionParams) {st : EngineState} :
      Reachable st → Reachable (setParams st si p)
  | load (nm : String) (pm : PresetStore) {st : EngineState} :
      Reachable st → Reachable (loadPreset nm pm st)

/-- The invariant of claim C10: every live articulation index is in
[0, numArticulations) and every articulation table has 3 entries. -/
def articulationInv (st : EngineState) : Prop :=
  ∀ si : Fin 5,
    (0 ≤ (st.sectionRuntime si).currentArticulationIndex
     ∧ (st.sectionRuntime si).currentArticulationIndex < numArticulations)
    ∧ ((st.sectionRuntime si).articulations).length = 3

/-- No section holds any voice object (the state before prepare()). -/
def emptyPools (st : EngineState) : Prop :=
  ∀ si : Fin 5, (st.sectionRuntime si).pool = []

/-- A block of note-ons applied in order to a section pool. -/
def notesFold (dsp : ExtDSP) (p : SectionParams) (rt : SectionRuntime)
    (notes : List (ℤ × ℚ)) (pool : List VoiceState) : List VoiceState :=
  notes.foldl (fun pl nv => poolNoteOn dsp p rt nv.1 nv.2 pl) pool

/-- The per-sample source signal the spec asserts: the average of two sine
partials at the note frequency and 1.01 times it, at t = (phase + n) / sr. -/
def specMonoBuffer (dsp : ExtDSP) (note : ℤ) (sr phase : ℚ)
    (numSamples : ℕ) : List ℚ :=
  (List.range numSamples).map (fun (n : ℕ) =>
    (dsp.sinF (dsp.twoPi * dsp.midiHz note * ((phase + (n : ℚ)) / sr))
     + dsp.sinF (dsp.twoPi * (dsp.midiHz note * (101/100))
         * ((phase + (n : ℚ)) / sr))) / 2)

-- =========================================================
-- Persistence lemmas
-- =========================================================

theorem loadSection_params_other (idx si : Fin 5) (id : String) (src : VTree)
    (st : EngineState) (h : idx ≠ si) :
    (loadSection idx id src st).sectionParams si = st.sectionParams si := by
  unfold loadSection
  cases getChildWithName src id with
  | none => rfl
  | some t =>
      simp only [setParams]
      exact if_neg (fun hc => h hc.symm)

theorem loadSection_params_same (idx : Fin 5) (id : String) (src : VTree)
    (st : EngineState) :
    (loadSection idx id src st).sectionParams idx =
      match getChildWithName src id with
      | none => st.sectionParams idx
      | some t => applySectionRecord t (st.sectionParams idx) := by
  unfold loadSection
  cases getChildWithName src id with
  | none => rfl
  | some t => simp [setParams]

theorem deserialise_params_char (src : VTree) (st : EngineState) (si : Fin 5) :
    (deserialiseFromValueTree src st).sectionParams si =
      match getChildWithName src (sectionName si) with
      | none => st.sectionParams si
      | some t => applySectionRecord t (st.sectionParams si) := by
  unfold deserialiseFromValueTree
  fin_cases si
  · show (loadSection 4 "choir" src (loadSection 3 "percussion" src
        (loadSection 2 "woodwinds" src (loadSection 1 "brass" src
          (loadSection 0 "strings" src st))))).sectionParams 0 =
      match getChildWithName src "strings" with
      | none => st.sectionParams 0
      | some t => applySectionRecord t (st.sectionParams 0)
    rw [loadSection_params_other 4 0 _ _ _ (by decide),
        loadSection_params_other 3 0 _ _ _ (by decide),
        loadSection_params_other 2 0 _ _ _ (by decide),
        loadSection_params_other 1 0 _ _ _ (by decide)]
    exact loadSection_params_same 0 _ _ _
  · show (loadSection 4 "choir" src (loadSection 3 "percussion" src
        (loadSection 2 "woodwinds" src (loadSection 1 "brass" src
          (loadSection 0 "strings" src st))))).sectionParams 1 =
      match getChildWithName src "brass" with
      | none => st.sectionParams 1
      | some t => applySectionRecord t (st.sectionParams 1)
    rw [loadSection_params_other 4 1 _ _ _ (by decide),
        loadSection_params_other 3 1 _ _ _ (by decide),
        loadSection_params_other 2 1 _ _ _ (by decide),
        loadSection_params_same 1 _ _ _,
        loadSection_params_other 0 1 _ _ _ (by decide)]
  · show (loadSection 4 "choir" src (loadSection 3 "percussion" src
        (loadSection 2 "woodwinds" src (loadSection 1 "brass" src
          (loadSection 0 "strings" src st))))).sectionParams 2 =
      match getChildWithName src "woodwinds" with
      | none => st.sectionParams 2
      | some t => applySectionRecord t (st.sectionParams 2)
    rw [loadSection_params_other 4 2 _ _ _ (by decide),
        loadSection_params_other 3 2 _ _ _ (by decide),
        loadSection_params_same 2 _ _ _,
        loadSection_params_other 1 2 _ _ _ (by decide),
        loadSection_params_other 0 2 _ _ _ (by decide)]
  · show (loadSection 4 "choir" src (loadSection 3 "percussion" src
        (loadSection 2 "woodwinds" src (loadSection 1 "brass" src
          (loadSection 0 "strings" src st))))).sectionParams 3 =
      match getChildWithName src "percussion" with
      | none => st.sectionParams 3
      | some t => applySectionRecord t (st.sectionParams 3)
    rw [loadSection_params_other 4 3 _ _ _ (by decide),
        loadSection_params_same 3 _ _ _,
        loadSection_params_other 2 3 _ _ _ (by decide),
        loadSection_params_other 1 3 _ _ _ (by decide),
        loadSection_params_other 0 3 _ _ _ (by decide)]
  · show (loadSection 4 "choir" src (loadSection 3 "percussion" src
        (loadSection 2 "woodwinds" src (loadSection 1 "brass" src
          (loadSection 0 "strings" src st))))).sectionParams 4 =
      match getChildWithName src "choir" with
      | none => st.sectionParams 4
      | some t => applySectionRecord t (st.sectionParams 4)
    rw [loadSection_params_same 4 _ _ _,
        loadSection_params_other 3 4 _ _ _ (by decide),
        loadSection_params_other 2 4 _ _ _ (by decide),
        loadSection_params_other 1 4 _ _ _ (by decide),
        loadSection_params_other 0 4 _ _ _ (by decide)]

/-- Claim C5: for every assignment of the five sections' parameter blocks,
serialise() followed by deserialise() into any engine state reproduces every
field of every section's parameter block exactly, integer and float fields
alike, with no tolerance, since no transformation is applied either way. -/
theorem C5_serialise_deserialise_roundtrip (st st' : EngineState) :
    (deserialiseFromValueTree (serialiseToValueTree st) st').sectionParams
      = st.sectionParams := by
  funext si
  rw [deserialise_params_char]
  fin_cases si <;> rfl

/-- Claim C6: deserialise applies exactly the fields present in the stored
record; a missing field, and every field of a section whose named record is
absent, keeps its prior value; loading a preset under an unknown name is a
no-op with no partial mutation. -/
theorem C6_partial_restore (st : EngineState) (src : VTree) (si : Fin 5)
    (nm : String) (pm : PresetStore) :
    (List.find? (fun kv => kv.1 == nm) pm = none → loadPreset nm pm st = st)
    ∧ (getChildWithName src (sectionName si) = none →
        (deserialiseFromValueTree src st).sectionParams si = st.sectionParams si)
    ∧ (∀ t : VTChild, getChildWithName src (sectionName si) = some t →
        (deserialiseFromValueTree src st).sectionParams si =
          applySectionRecord t (st.sectionParams si)
        ∧ (lookupProp t "maxVoices" = none →
            ((deserialiseFromValueTree src st).sectionParams si).maxVoices
              = (st.sectionParams si).maxVoices)
        ∧ (lookupProp t "gain" = none →
            ((deserialiseFromValueTree src st).sectionParams si).gain
              = (st.sectionParams si).gain)
        ∧ (lookupProp t "pan" = none →
            ((deserialiseFromValueTree src st).sectionParams si).pan
              = (st.sectionParams si).pan)
        ∧ (lookupProp t "cutoff" = none →
            ((deserialiseFromValueTree src st).sectionParams si).cutoff
              = (st.sectionParams si).cutoff)
        ∧ (lookupProp t "resonance" = none →
            ((deserialiseFromValueTree src st).sectionParams si).resonance
              = (st.sectionParams si).resonance)
        ∧ (lookupProp t "attackMs" = none →
            ((deserialiseFromValueTree src st).sectionParams si).attackMs
              = (st.sectionParams si).attackMs)
        ∧ (lookupProp t "releaseMs" = none →
            ((deserialiseFromValueTree src st).sectionParams si).releaseMs
              = (st.sectionParams si).releaseMs)
        ∧ (lookupProp t "reverbSend" = none →
            ((deserialiseFromValueTree src st).sectionParams si).reverbSend
              = (st.sectionParams si).reverbSend)
        ∧ (lookupProp t "oversampleFactor" = none →
            ((deserialiseFromValueTree src st).sectionParams si).oversampleFactor
              = (st.sectionParams si).oversampleFactor)
        ∧ (lookupProp t "articulationIndex" = none →
            ((deserialiseFromValueTree src st).sectionParams si).articulationIndex
              = (st.sectionParams si).articulationIndex)) := by
  refine ⟨?_, ?_, ?_⟩
  · intro h
    unfold loadPreset
    rw [h]
  · intro h
    rw [deserialise_params_char, h]
  · intro t ht
    rw [deserialise_params_char, ht]
    refine ⟨rfl, ?_, ?_, ?_, ?_, ?_, ?_, ?_, ?_, ?_, ?_⟩ <;>
      (intro h; simp [applySectionRecord, getPropInt, getPropFloat, h])

/-- Witness for C6 at concrete inputs: an empty preset store, a tree whose
only child is a brass record missing every field but gain. -/
theorem C6_partial_restore_witness :
    (loadPreset "missing" [] initialEngine = initialEngine)
    ∧ ((deserialiseFromValueTree [⟨"brass", [("gain", .vFloat (1/2))]⟩]
         initialEngine).sectionParams 0 = initialEngine.sectionParams 0)
    ∧ ((deserialiseFromValueTree [⟨"brass", [("gain", .vFloat (1/2))]⟩]
         initialEngine).sectionParams 1).attackMs
        = (initialEngine.sectionParams 1).attackMs := by
  refine ⟨?_, ?_, ?_⟩
  · exact (C6_partial_restore initialEngine [] 0 "missing" []).1 rfl
  · exact (C6_partial_restore initialEngine
      [⟨"brass", [("gain", .vFloat (1/2))]⟩] 0 "x" []).2.1 rfl
  · exact ((C6_partial_restore initialEngine
      [⟨"brass", [("gain", .vFloat (1/2))]⟩] 1 "x" []).2.2
        ⟨"brass", [("gain", .vFloat (1/2))]⟩ rfl).2.2.2.2.2.2.1 rfl

/-- Claim C8: with no impulse response loaded the convolution stage is the
identity transform on the bus for every input buffer, prepared or not, and
never an error; loadImpulseResponse discards the decoded buffer, so the
convolution state never acquires an impulse response. -/
theorem C8_convolution_passthrough (dsp : ExtDSP) (c : ConvolutionState)
    (buf : Buf) (hir : c.irLoaded = false) :
    ConvolutionEngine.process dsp c buf = buf
    ∧ ConvolutionEngine.loadImpulseResponse c = c := by
  constructor
  · simp [ConvolutionEngine.process, hir]
  · rfl

/-- Witness for C8: a prepared convolution stage with no impulse response on
a concrete two-sample buffer. -/
theorem C8_convolution_passthrough_witness :
    ConvolutionEngine.process trivDSP { prepared := true } [(1, 2), (3, 4)]
      = [(1, 2), (3, 4)]
    ∧ ConvolutionEngine.loadImpulseResponse { prepared := true }
      = { prepared := true } :=
  C8_convolution_passthrough trivDSP { prepared := true } [(1, 2), (3, 4)] rfl

-- =========================================================
-- Router lemmas
-- =========================================================

theorem setRuntime_apply (st : EngineState) (s0 si : Fin 5) (rt : SectionRuntime) :
    (setRuntime st s0 rt).sectionRuntime si
      = if si = s0 then rt else st.sectionRuntime si := rfl

theorem splitStep_frame (st : EngineState) (e : TimedEvent) (si : Fin 5) :
    ((splitStep st e).sectionRuntime si).pool = (st.sectionRuntime si).pool
    ∧ ((splitStep st e).sectionRuntime si).articulations
        = (st.sectionRuntime si).articulations
    ∧ (splitStep st e).sectionParams = st.sectionParams
    ∧ (splitStep st e).convolution = st.convolution
    ∧ (splitStep st e).oversamplerPrepared = st.oversamplerPrepared := by
  rcases e with ⟨msg, pos⟩
  unfold splitStep
  cases msg with
  | noteOn c note vel =>
      dsimp only [MidiMsg.channel]
      split
      · split
        · refine ⟨?_, ?_, rfl, rfl, rfl⟩ <;>
            (rw [setRuntime_apply]; split;
             · rename_i h; subst h; rfl
             · rfl)
        · refine ⟨?_, ?_, rfl, rfl, rfl⟩ <;>
            (rw [setRuntime_apply]; split;
             · rename_i h; subst h; rfl
             · rfl)
      · exact ⟨rfl, rfl, rfl, rfl, rfl⟩
  | noteOff c note vel =>
      dsimp only [MidiMsg.channel]
      split
      · refine ⟨?_, ?_, rfl, rfl, rfl⟩ <;>
          (rw [setRuntime_apply]; split;
           · rename_i h; subst h; rfl
           · rfl)
      · exact ⟨rfl, rfl, rfl, rfl, rfl⟩
  | other c =>
      dsimp only [MidiMsg.channel]
      split
      · refine ⟨?_, ?_, rfl, rfl, rfl⟩ <;>
          (rw [setRuntime_apply]; split;
           · rename_i h; subst h; rfl
           · rfl)
      · exact ⟨rfl, rfl, rfl, rfl, rfl⟩

theorem splitStep_queue (st : EngineState) (e : TimedEvent) (si : Fin 5) :
    ((splitStep st e).sectionRuntime si).queue =
      (st.sectionRuntime si).queue ++ (if routedTo si e then [e] else []) := by
  rcases e with ⟨msg, pos⟩
  unfold splitStep
  cases msg with
  | noteOn c note vel =>
      dsimp only [MidiMsg.channel]
      split
      · rename_i h
        split
        · rename_i hk
          have hr : routedTo si ⟨MidiMsg.noteOn c note vel, pos⟩ = false := by
            simp [routedTo, isKeyswitchOn, hk]
          rw [hr, setRuntime_apply]
          split
          · rename_i hsi; subst hsi; simp
          · simp
        · rename_i hk
          have hks : isKeyswitchOn (MidiMsg.noteOn c note vel) = false := by
            simp only [isKeyswitchOn, decide_eq_false_iff_not]
            exact hk
          rw [setRuntime_apply]
          split
          · rename_i hsi
            have hz : c - 1 = (si : ℤ) := by
              subst hsi
              exact (Int.toNat_of_nonneg h.1).symm
            have hr : routedTo si ⟨MidiMsg.noteOn c note vel, pos⟩ = true := by
              simp [routedTo, hks, MidiMsg.channel, hz]
            rw [hr]
            subst hsi
            simp
          · rename_i hsi
            have hne : ¬ (c - 1 = (si : ℤ)) := by
              intro hc
              apply hsi
              apply Fin.ext
              show (si : ℕ) = (c - 1).toNat
              have ht := Int.toNat_of_nonneg h.1
              omega
            have hr : routedTo si ⟨MidiMsg.noteOn c note vel, pos⟩ = false := by
              simp [routedTo, MidiMsg.channel, hne]
            rw [hr]
            simp
      · rename_i h
        simp only [numSections] at h
        have hne : ¬ (c - 1 = (si : ℤ)) := by
          intro hc
          have h5 := si.isLt
          apply h
          constructor <;> omega
        have hr : routedTo si ⟨MidiMsg.noteOn c note vel, pos⟩ = false := by
          simp [routedTo, MidiMsg.channel, hne]
        rw [hr]
        simp
  | noteOff c note vel =>
      dsimp only [MidiMsg.channel]
      split
      · rename_i h
        rw [setRuntime_apply]
        split
        · rename_i hsi
          have hz : c - 1 = (si : ℤ) := by
            subst hsi
            exact (Int.toNat_of_nonneg h.1).symm
          have hr : routedTo si ⟨MidiMsg.noteOff c note vel, pos⟩ = true := by
            simp [routedTo, isKeyswitchOn, MidiMsg.channel, hz]
          rw [hr]
          subst hsi
          simp
        · rename_i hsi
          have hne : ¬ (c - 1 = (si : ℤ)) := by
            intro hc
            apply hsi
            apply Fin.ext
            show (si : ℕ) = (c - 1).toNat
            have ht := Int.toNat_of_nonneg h.1
            omega
          have hr : routedTo si ⟨MidiMsg.noteOff c note vel, pos⟩ = false := by
            simp [routedTo, MidiMsg.channel, hne]
          rw [hr]
          simp
      · rename_i h
        simp only [numSections] at h
        have hne : ¬ (c - 1 = (si : ℤ)) := by
          intro hc
          have h5 := si.isLt
          apply h
          constructor <;> omega
        have hr : routedTo si ⟨MidiMsg.noteOff c note vel, pos⟩ = false := by
          simp [routedTo, MidiMsg.channel, hne]
        rw [hr]
        simp
  | other c =>
      dsimp only [MidiMsg.channel]
      split
      · rename_i h
        rw [setRuntime_apply]
        split
        · rename_i hsi
          have hz : c - 1 = (si : ℤ) := by
            subst hsi
            exact (Int.toNat_of_nonneg h.1).symm
          have hr : routedTo si ⟨MidiMsg.other c, pos⟩ = true := by
            simp [routedTo, isKeyswitchOn, MidiMsg.channel, hz]
          rw [hr]
          subst hsi
          simp
        · rename_i hsi
          have hne : ¬ (c - 1 = (si : ℤ)) := by
            intro hc
            apply hsi
            apply Fin.ext
            show (si : ℕ) = (c - 1).toNat
            have ht := Int.toNat_of_nonneg h.1
            omega
          have hr : routedTo si ⟨MidiMsg.other c, pos⟩ = false := by
            simp [routedTo, MidiMsg.channel, hne]
          rw [hr]
          simp
      · rename_i h
        simp only [numSections] at h
        have hne : ¬ (c - 1 = (si : ℤ)) := by
          intro hc
          have h5 := si.isLt
          apply h
          constructor <;> omega
        have hr : routedTo si ⟨MidiMsg.other c, pos⟩ = false := by
          simp [routedTo, MidiMsg.channel, hne]
        rw [hr]
        simp

theorem foldl_splitStep_queue (midi : List TimedEvent) (st : EngineState)
    (si : Fin 5) :
    ((midi.foldl splitStep st).sectionRuntime si).queue =
      (st.sectionRuntime si).queue ++ midi.filter (routedTo si) := by
  induction midi generalizing st with
  | nil => simp
  | cons e rest ih =>
      rw [List.foldl_cons, ih, splitStep_queue, List.filter_cons]
      by_cases hr : routedTo si e
      · simp [hr]
      · simp [hr]

theorem foldl_splitStep_frame (midi : List TimedEvent) (st : EngineState)
    (si : Fin 5) :
    ((midi.foldl splitStep st).sectionRuntime si).pool
        = (st.sectionRuntime si).pool
    ∧ ((midi.foldl splitStep st).sectionRuntime si).articulations
        = (st.sectionRuntime si).articulations
    ∧ (midi.foldl splitStep st).sectionParams = st.sectionParams
    ∧ (midi.foldl splitStep st).convolution = st.convolution
    ∧ (midi.foldl splitStep st).oversamplerPrepared = st.oversamplerPrepared := by
  induction midi generalizing st with
  | nil => exact ⟨rfl, rfl, rfl, rfl, rfl⟩
  | cons e rest ih =>
      rw [List.foldl_cons]
      obtain ⟨p1, p2, p3, p4, p5⟩ := ih (splitStep st e)
      obtain ⟨q1, q2, q3, q4, q5⟩ := splitStep_frame st e si
      exact ⟨p1.trans q1, p2.trans q2, p3.trans q3, p4.trans q4, p5.trans q5⟩

/-- The queue of a section after splitMidiBySection is exactly the events of
this block routed to it, in input order; the input is drained. -/
theorem splitMidi_queue (st : EngineState) (midi : List TimedEvent) (si : Fin 5) :
    ((splitMidiBySection st midi).1.sectionRuntime si).queue
        = midi.filter (routedTo si)
    ∧ (splitMidiBySection st midi).2 = [] := by
  constructor
  · show ((midi.foldl splitStep _).sectionRuntime si).queue = _
    rw [foldl_splitStep_queue]
    rfl
  · rfl

theorem splitStep_artIdx_bounds (st : EngineState) (e : TimedEvent) (si : Fin 5) :
    ((splitStep st e).sectionRuntime si).currentArticulationIndex
        = (st.sectionRuntime si).currentArticulationIndex
    ∨ (0 ≤ ((splitStep st e).sectionRuntime si).currentArticulationIndex
       ∧ ((splitStep st e).sectionRuntime si).currentArticulationIndex
           < numArticulations) := by
  rcases e with ⟨msg, pos⟩
  unfold splitStep
  cases msg with
  | noteOn c note vel =>
      dsimp only [MidiMsg.channel]
      split
      · split
        · rename_i hk
          rw [setRuntime_apply]
          split
          · right; exact hk
          · left; rfl
        · rw [setRuntime_apply]
          split
          · rename_i hsi; subst hsi; left; rfl
          · left; rfl
      · left; rfl
  | noteOff c note vel =>
      dsimp only [MidiMsg.channel]
      split
      · rw [setRuntime_apply]
        split
        · rename_i hsi; subst hsi; left; rfl
        · left; rfl
      · left; rfl
  | other c =>
      dsimp only [MidiMsg.channel]
      split
      · rw [setRuntime_apply]
        split
        · rename_i hsi; subst hsi; left; rfl
        · left; rfl
      · left; rfl

/-- A keyswitch note-on on a valid channel sets the target section's live
articulation index to note - base. -/
theorem splitStep_keyswitch_sets (st : EngineState) (c note : ℤ) (vel : ℚ)
    (pos : ℤ) (si : Fin 5)
    (hch : 0 ≤ c - 1 ∧ c - 1 < numSections)
    (hsi : (si : ℤ) = c - 1)
    (hks : 0 ≤ note - articulationKeyswitchBaseNote ∧
           note - articulationKeyswitchBaseNote < numArticulations) :
    ((splitStep st ⟨.noteOn c note vel, pos⟩).sectionRuntime si).currentArticulationIndex
      = note - articulationKeyswitchBaseNote := by
  unfold splitStep
  dsimp only [MidiMsg.channel]
  rw [dif_pos hch, if_pos hks, setRuntime_apply, if_pos]
  apply Fin.ext
  show (si : ℕ) = (c - 1).toNat
  omega

/-- Claim C2 (amended): every MIDI event of the block that is not consumed
as a keyswitch is forwarded to exactly the queue of section channel - 1 when
the channel is in 1..5; events with channel 0 or at least 6 reach no queue
and raise no error; each section queue preserves the original event order
(it is the order-preserving filter, hence a sublist, of the input); and the
input stream is fully drained each block. -/
theorem C2_router_partition (st : EngineState) (midi : List TimedEvent)
    (si : Fin 5) :
    ((splitMidiBySection st midi).1.sectionRuntime si).queue
        = midi.filter (routedTo si)
    ∧ (splitMidiBySection st midi).2 = []
    ∧ List.Sublist ((splitMidiBySection st midi).1.sectionRuntime si).queue midi
    ∧ (∀ e ∈ midi, (e.msg.channel ≤ 0 ∨ 6 ≤ e.msg.channel) →
        e ∉ ((splitMidiBySection st midi).1.sectionRuntime si).queue)
    ∧ (∀ e ∈ midi, isKeyswitchOn e.msg = false →
        (e ∈ ((splitMidiBySection st midi).1.sectionRuntime si).queue
          ↔ e.msg.channel - 1 = (si : ℤ))) := by
  obtain ⟨hq, hd⟩ := splitMidi_queue st midi si
  refine ⟨hq, hd, ?_, ?_, ?_⟩
  · rw [hq]
    exact List.filter_sublist midi
  · intro e he hch hmem
    rw [hq] at hmem
    have hro := List.of_mem_filter hmem
    simp only [routedTo, Bool.and_eq_true, decide_eq_true_eq] at hro
    have h5 := si.isLt
    obtain ⟨h1, _⟩ := hro
    omega
  · intro e he hks
    rw [hq]
    constructor
    · intro hmem
      have hro := List.of_mem_filter hmem
      simp only [routedTo, Bool.and_eq_true, decide_eq_true_eq] at hro
      exact hro.1
    · intro hch
      refine List.mem_filter.2 ⟨he, ?_⟩
      simp [routedTo, hks, hch]

/-- Witness for C2 at concrete inputs: a block with a sounding note-on on
channel 2, a note-off on channel 2 and an event on channel 9; the channel-9
event reaches no queue, the two channel-2 events land in the brass queue in
order, and the input is drained. -/
theorem C2_router_partition_witness :
    ((splitMidiBySection initialEngine
        [⟨MidiMsg.noteOn 2 60 1, 0⟩, ⟨MidiMsg.other 9, 3⟩,
         ⟨MidiMsg.noteOff 2 60 0, 7⟩]).1.sectionRuntime 1).queue
      = [⟨MidiMsg.noteOn 2 60 1, 0⟩, ⟨MidiMsg.noteOff 2 60 0, 7⟩]
    ∧ (⟨MidiMsg.other 9, 3⟩ : TimedEvent)
        ∉ ((splitMidiBySection initialEngine
            [⟨MidiMsg.noteOn 2 60 1, 0⟩, ⟨MidiMsg.other 9, 3⟩,
             ⟨MidiMsg.noteOff 2 60 0, 7⟩]).1.sectionRuntime 1).queue
    ∧ (⟨MidiMsg.noteOn 2 60 1, 0⟩ : TimedEvent)
        ∈ ((splitMidiBySection initialEngine
            [⟨MidiMsg.noteOn 2 60 1, 0⟩, ⟨MidiMsg.other 9, 3⟩,
             ⟨MidiMsg.noteOff 2 60 0, 7⟩]).1.sectionRuntime 1).queue := by
  have h := C2_router_partition initialEngine
    [⟨MidiMsg.noteOn 2 60 1, 0⟩, ⟨MidiMsg.other 9, 3⟩,
     ⟨MidiMsg.noteOff 2 60 0, 7⟩] 1
  refine ⟨?_, ?_, ?_⟩
  · rw [h.1]
    rfl
  · exact h.2.2.2.1 ⟨MidiMsg.other 9, 3⟩ (by simp) (by right; decide)
  · exact (h.2.2.2.2 ⟨MidiMsg.noteOn 2 60 1, 0⟩ (by simp) (by decide)).2 (by decide)

/-- Counterexample to claim C2 as stated: the keyswitch note-on (channel 1,
note 24) has its channel in 1..5, yet the router does not forward it to the
strings queue (index channel - 1 = 0), which stays empty; the event is
consumed as a keyswitch instead. -/
theorem C2_keyswitch_not_forwarded :
    (MidiMsg.noteOn 1 24 1).channel = 1
    ∧ ((splitMidiBySection initialEngine
          [⟨MidiMsg.noteOn 1 24 1, 0⟩]).1.sectionRuntime (0 : Fin 5)).queue
        = [] := by
  constructor
  · rfl
  · rw [(splitMidi_queue initialEngine [⟨MidiMsg.noteOn 1 24 1, 0⟩] 0).1]
    rfl

/-- Claim C3: a note-on on a valid section channel whose note satisfies
note - 24 in [0, 3) is consumed as a keyswitch: it sets that section's live
articulation index to note - 24 and is forwarded to no queue (no sound);
note-offs are forwarded unconditionally with no keyswitch interpretation;
and the next sounding note started on that channel takes its ADSR
attack/decay/sustain/release and filter settings from the newly selected
articulation preset when its envelope is initialised. -/
theorem C3_keyswitch_consumed (st : EngineState) (c note : ℤ) (vel : ℚ)
    (pos : ℤ) (si : Fin 5)
    (hsi : (si : ℤ) = c - 1)
    (hks : 0 ≤ note - articulationKeyswitchBaseNote ∧
           note - articulationKeyswitchBaseNote < numArticulations) :
    (((splitMidiBySection st [⟨.noteOn c note vel, pos⟩]).1.sectionRuntime
        si).currentArticulationIndex = note - articulationKeyswitchBaseNote)
    ∧ (∀ sj : Fin 5,
        ((splitMidiBySection st [⟨.noteOn c note vel, pos⟩]).1.sectionRuntime
          sj).queue = [])
    ∧ (∀ (note2 : ℤ) (vel2 : ℚ) (pos2 : ℤ),
        ((splitMidiBySection st [⟨.noteOff c note2 vel2, pos2⟩]).1.sectionRuntime
            si).queue = [⟨.noteOff c note2 vel2, pos2⟩])
    ∧ (getCurrentArticulation
          ((splitMidiBySection st [⟨.noteOn c note vel, pos⟩]).1.sectionRuntime si)
        = (st.sectionRuntime si).articulations.getD
            (note - articulationKeyswitchBaseNote).toNat default)
    ∧ (∀ (dsp : ExtDSP) (p : SectionParams) (art : ArticulationParams)
         (n2 : ℤ) (v2 : ℚ) (v : VoiceState),
        (SectionVoice.startNote dsp p art n2 v2 v).adsrAttack
            = art.attackMs * (1/1000)
        ∧ (SectionVoice.startNote dsp p art n2 v2 v).adsrDecay
            = art.decayMs * (1/1000)
        ∧ (SectionVoice.startNote dsp p art n2 v2 v).adsrSustain = art.sustain
        ∧ (SectionVoice.startNote dsp p art n2 v2 v).adsrRelease
            = art.releaseMs * (1/1000)
        ∧ (SectionVoice.startNote dsp p art n2 v2 v).filterCutoff
            = art.filterCutoff
        ∧ (SectionVoice.startNote dsp p art n2 v2 v).filterResonance
            = art.filterResonance)
    ∧ (∀ (dsp : ExtDSP) (p : SectionParams) (n2 : ℤ) (v2 : ℚ)
         (pool : List VoiceState) (i : ℕ), firstInactive pool = some i →
        poolNoteOn dsp p
            ((splitMidiBySection st [⟨.noteOn c note vel, pos⟩]).1.sectionRuntime si)
            n2 v2 pool
          = pool.set i (startVoice dsp p
              ((st.sectionRuntime si).articulations.getD
                (note - articulationKeyswitchBaseNote).toNat default)
              n2 v2 (pool.getD i default))) := by
  have h5 := si.isLt
  have hch : 0 ≤ c - 1 ∧ c - 1 < numSections := by
    simp only [numSections]
    omega
  have hksb : isKeyswitchOn (MidiMsg.noteOn c note vel) = true := by
    simp only [isKeyswitchOn, decide_eq_true_eq]
    exact hks
  have hidx : ((splitMidiBySection st [⟨.noteOn c note vel, pos⟩]).1.sectionRuntime
      si).currentArticulationIndex = note - articulationKeyswitchBaseNote := by
    show ((splitStep _ _).sectionRuntime si).currentArticulationIndex = _
    exact splitStep_keyswitch_sets _ c note vel pos si hch hsi hks
  have hart : ((splitMidiBySection st [⟨.noteOn c note vel, pos⟩]).1.sectionRuntime
      si).articulations = (st.sectionRuntime si).articulations := by
    show ((splitStep _ _).sectionRuntime si).articulations = _
    exact (splitStep_frame _ _ si).2.1
  refine ⟨hidx, ?_, ?_, ?_, ?_, ?_⟩
  · intro sj
    rw [(splitMidi_queue st _ sj).1]
    simp [routedTo, hksb]
  · intro note2 vel2 pos2
    have hro : routedTo si ⟨MidiMsg.noteOff c note2 vel2, pos2⟩ = true := by
      simp only [routedTo, isKeyswitchOn, MidiMsg.channel, Bool.not_false,
        Bool.and_true, decide_eq_true_eq]
      exact hsi.symm
    rw [(splitMidi_queue st _ si).1]
    simp [hro]
  · unfold getCurrentArticulation
    rw [hidx, hart]
    have hcl : jlimitI 0 (numArticulations - 1) (note - articulationKeyswitchBaseNote)
        = note - articulationKeyswitchBaseNote := by
      simp only [numArticulations] at hks ⊢
      unfold jlimitI
      rw [if_neg (by omega), if_neg (by omega)]
    rw [hcl]
  · intro dsp p art n2 v2 v
    exact ⟨rfl, rfl, rfl, rfl, rfl, rfl⟩
  · intro dsp p n2 v2 pool i hfi
    unfold poolNoteOn
    rw [hfi]
    unfold getCurrentArticulation
    rw [hidx, hart]
    have hcl : jlimitI 0 (numArticulations - 1) (note - articulationKeyswitchBaseNote)
        = note - articulationKeyswitchBaseNote := by
      simp only [numArticulations] at hks ⊢
      unfold jlimitI
      rw [if_neg (by omega), if_neg (by omega)]
    rw [hcl]

/-- Witness for C3 at concrete inputs: keyswitch note 25 on channel 2 sets
the brass live articulation to 1, reaches no queue, and a following note-off
on channel 2 is forwarded. -/
theorem C3_keyswitch_consumed_witness :
    (((splitMidiBySection initialEngine
        [⟨.noteOn 2 25 1, 0⟩]).1.sectionRuntime 1).currentArticulationIndex
      = 25 - articulationKeyswitchBaseNote)
    ∧ ((splitMidiBySection initialEngine
        [⟨.noteOn 2 25 1, 0⟩]).1.sectionRuntime 1).queue = []
    ∧ ((splitMidiBySection initialEngine
        [⟨.noteOff 2 60 0, 9⟩]).1.sectionRuntime 1).queue
      = [⟨.noteOff 2 60 0, 9⟩] := by
  have h := C3_keyswitch_consumed initialEngine 2 25 1 0 1 (by decide) (by decide)
  exact ⟨h.1, h.2.1 1, h.2.2.1 60 0 9⟩

-- =========================================================
-- Reachable engine states and the articulation-index invariant
-- =========================================================

theorem initial_inv : articulationInv initialEngine := by
  intro si
  refine ⟨⟨?_, ?_⟩, rfl⟩
  · show (0 : ℤ) ≤ 0
    decide
  · show (0 : ℤ) < numArticulations
    decide

theorem splitStep_inv {st : EngineState} (h : articulationInv st)
    (e : TimedEvent) : articulationInv (splitStep st e) := by
  intro si
  constructor
  · rcases splitStep_artIdx_bounds st e si with heq | hb
    · rw [heq]
      exact (h si).1
    · exact hb
  · rw [(splitStep_frame st e si).2.1]
    exact (h si).2

theorem foldl_splitStep_inv {st : EngineState} (h : articulationInv st)
    (midi : List TimedEvent) : articulationInv (midi.foldl splitStep st) := by
  induction midi generalizing st with
  | nil => exact h
  | cons e rest ih => exact ih (splitStep_inv h e)

theorem splitMidi_inv {st : EngineState} (h : articulationInv st)
    (midi : List TimedEvent) :
    articulationInv (splitMidiBySection st midi).1 := by
  have h0 : articulationInv
      { st with sectionRuntime :=
          fun j => { st.sectionRuntime j with queue := [] } } :=
    fun si => h si
  exact fun si => foldl_splitStep_inv h0 midi si

theorem renderSectionAt_runtime (dsp : ExtDSP) (si sj : Fin 5)
    (acc : EngineState × Buf) :
    ((renderSectionAt dsp si acc).1.sectionRuntime sj).currentArticulationIndex
        = ((acc.1).sectionRuntime sj).currentArticulationIndex
    ∧ ((renderSectionAt dsp si acc).1.sectionRuntime sj).articulations
        = ((acc.1).sectionRuntime sj).articulations
    ∧ ((renderSectionAt dsp si acc).1.sectionRuntime sj).queue
        = ((acc.1).sectionRuntime sj).queue
    ∧ (renderSectionAt dsp si acc).1.sectionParams = (acc.1).sectionParams
    ∧ (renderSectionAt dsp si acc).1.convolution = (acc.1).convolution
    ∧ (renderSectionAt dsp si acc).1.oversamplerPrepared
        = (acc.1).oversamplerPrepared := by
  unfold renderSectionAt synthRenderNextBlock
  refine ⟨?_, ?_, ?_, rfl, rfl, rfl⟩ <;>
    (rw [setRuntime_apply]; split;
     · rename_i h; subst h; rfl
     · rfl)

theorem renderSectionAt_inv (dsp : ExtDSP) (si : Fin 5)
    {acc : EngineState × Buf} (h : articulationInv acc.1) :
    articulationInv (renderSectionAt dsp si acc).1 := by
  intro sj
  obtain ⟨e1, e2, _⟩ := renderSectionAt_runtime dsp si sj acc
  refine ⟨?_, ?_⟩
  · rw [e1]
    exact (h sj).1
  · rw [e2]
    exact (h sj).2

theorem processBlock_inv (dsp : ExtDSP) (buffer : Buf)
    (midi : List TimedEvent) {st : EngineState} (h : articulationInv st) :
    articulationInv (processBlock dsp st buffer midi).1 := by
  show articulationInv (renderSectionAt dsp 4 (renderSectionAt dsp 3
    (renderSectionAt dsp 2 (renderSectionAt dsp 1 (renderSectionAt dsp 0 _))))).1
  apply renderSectionAt_inv
  apply renderSectionAt_inv
  apply renderSectionAt_inv
  apply renderSectionAt_inv
  apply renderSectionAt_inv
  exact splitMidi_inv h midi

theorem loadSection_runtime (idx : Fin 5) (id : String) (src : VTree)
    (st : EngineState) :
    (loadSection idx id src st).sectionRuntime = st.sectionRuntime := by
  unfold loadSection
  cases getChildWithName src id <;> rfl

theorem deserialise_runtime (src : VTree) (st : EngineState) :
    (deserialiseFromValueTree src st).sectionRuntime = st.sectionRuntime := by
  unfold deserialiseFromValueTree
  rw [loadSection_runtime, loadSection_runtime, loadSection_runtime,
      loadSection_runtime, loadSection_runtime]

theorem loadPreset_runtime (nm : String) (pm : PresetStore) (st : EngineState) :
    (loadPreset nm pm st).sectionRuntime = st.sectionRuntime := by
  unfold loadPreset
  cases List.find? (fun kv => kv.1 == nm) pm with
  | none => rfl
  | some kv => exact deserialise_runtime _ _

theorem reachable_inv {st : EngineState} (h : Reachable st) :
    articulationInv st := by
  induction h with
  | init => exact initial_inv
  | prepare sr bs _ ih => exact fun si => ih si
  | reset _ ih => exact fun si => ih si
  | block dsp buffer midi _ ih => exact processBlock_inv dsp buffer midi ih
  | setSection si p _ ih => exact fun sj => ih sj
  | load nm pm _ ih =>
      intro sj
      rw [articulationInv] at ih
      have := ih sj
      rw [loadPreset_runtime]
      exact this

/-- Claim C10: the live articulation index of every section starts at 0, is
kept in [0, numArticulations) by every reachable engine state (the only
mutation, keyswitch handling, stores an already-verified value), and every
articulation lookup clamps the index to [0, numArticulations - 1] before
indexing, so the table lookup is in bounds whenever the table has its 3
entries, whatever the stored index. -/
theorem C10_articulation_index_bounds :
    (∀ si : Fin 5, (initialEngine.sectionRuntime si).currentArticulationIndex = 0)
    ∧ (∀ st : EngineState, Reachable st → ∀ si : Fin 5,
        0 ≤ (st.sectionRuntime si).currentArticulationIndex
        ∧ (st.sectionRuntime si).currentArticulationIndex < numArticulations)
    ∧ (∀ st : EngineState, Reachable st → ∀ si : Fin 5,
        ((st.sectionRuntime si).articulations).length = 3)
    ∧ (∀ rt : SectionRuntime, rt.articulations.length = 3 →
        (jlimitI 0 (numArticulations - 1) rt.currentArticulationIndex).toNat
          < rt.articulations.length) := by
  refine ⟨fun _ => rfl, ?_, ?_, ?_⟩
  · intro st h si
    exact (reachable_inv h si).1
  · intro st h si
    exact (reachable_inv h si).2
  · intro rt hlen
    rw [hlen]
    simp only [numArticulations, jlimitI]
    split
    · omega
    · split <;> omega

/-- Witness for C10: the invariant holds at the initial state and at the
state after one keyswitch-bearing block, where the live strings index is 2
and its clamped lookup index 2 is in bounds of the 3-entry table. -/
theorem C10_articulation_index_bounds_witness :
    (0 ≤ (((processBlock trivDSP initialEngine []
        [⟨.noteOn 1 26 1, 0⟩]).1).sectionRuntime 0).currentArticulationIndex
      ∧ (((processBlock trivDSP initialEngine []
        [⟨.noteOn 1 26 1, 0⟩]).1).sectionRuntime 0).currentArticulationIndex
          < numArticulations)
    ∧ ((((processBlock trivDSP initialEngine []
        [⟨.noteOn 1 26 1, 0⟩]).1).sectionRuntime 0).articulations).length = 3
    ∧ (jlimitI 0 (numArticulations - 1) 7).toNat
        < defaultArticulations.length := by
  refine ⟨?_, ?_, ?_⟩
  · exact C10_articulation_index_bounds.2.1 _
      (Reachable.block trivDSP [] [⟨.noteOn 1 26 1, 0⟩] Reachable.init) 0
  · exact C10_articulation_index_bounds.2.2.1 _
      (Reachable.block trivDSP [] [⟨.noteOn 1 26 1, 0⟩] Reachable.init) 0
  · exact C10_articulation_index_bounds.2.2.2
      { currentArticulationIndex := 7 } rfl

theorem handleSynthEvent_nil (dsp : ExtDSP) (p : SectionParams)
    (rt : SectionRuntime) (e : TimedEvent) :
    handleSynthEvent dsp p rt [] e = [] := by
  rcases e with ⟨msg, pos⟩
  cases msg <;> rfl

theorem foldl_handleSynthEvent_nil (dsp : ExtDSP) (p : SectionParams)
    (rt : SectionRuntime) (q : List TimedEvent) :
    q.foldl (handleSynthEvent dsp p rt) [] = [] := by
  induction q with
  | nil => rfl
  | cons e rest ih => rw [List.foldl_cons, handleSynthEvent_nil]; exact ih

theorem synthRender_empty (dsp : ExtDSP) (p : SectionParams)
    (rt : SectionRuntime) (buf : Buf) (h : rt.pool = []) :
    synthRenderNextBlock dsp p rt buf = ({ rt with pool := [] }, buf) := by
  unfold synthRenderNextBlock
  rw [h, foldl_handleSynthEvent_nil]
  rfl

theorem renderSectionAt_empty (dsp : ExtDSP) (si : Fin 5)
    (acc : EngineState × Buf) (h : emptyPools acc.1) :
    (renderSectionAt dsp si acc).2 = acc.2
    ∧ emptyPools (renderSectionAt dsp si acc).1 := by
  unfold renderSectionAt
  rw [synthRender_empty dsp _ _ _ (h si)]
  constructor
  · rfl
  · intro sj
    show ((setRuntime acc.1 si _).sectionRuntime sj).pool = []
    rw [setRuntime_apply]
    split
    · rfl
    · exact h sj

theorem map_zero_eq_replicate (l : Buf) :
    l.map (fun _ => ((0 : ℚ), (0 : ℚ))) = List.replicate l.length (0, 0) := by
  induction l with
  | nil => rfl
  | cons a t ih => simp [ih, List.replicate_succ]

theorem renderChain_empty (dsp : ExtDSP) (acc : EngineState × Buf)
    (h : emptyPools acc.1) :
    (renderSectionAt dsp 4 (renderSectionAt dsp 3 (renderSectionAt dsp 2
      (renderSectionAt dsp 1 (renderSectionAt dsp 0 acc))))).2 = acc.2
    ∧ (renderSectionAt dsp 4 (renderSectionAt dsp 3 (renderSectionAt dsp 2
        (renderSectionAt dsp 1 (renderSectionAt dsp 0 acc))))).1.convolution
        = acc.1.convolution
    ∧ (renderSectionAt dsp 4 (renderSectionAt dsp 3 (renderSectionAt dsp 2
        (renderSectionAt dsp 1 (renderSectionAt dsp 0 acc))))).1.oversamplerPrepared
        = acc.1.oversamplerPrepared := by
  obtain ⟨b0, p0⟩ := renderSectionAt_empty dsp 0 acc h
  obtain ⟨b1, p1⟩ := renderSectionAt_empty dsp 1 _ p0
  obtain ⟨b2, p2⟩ := renderSectionAt_empty dsp 2 _ p1
  obtain ⟨b3, p3⟩ := renderSectionAt_empty dsp 3 _ p2
  obtain ⟨b4, p4⟩ := renderSectionAt_empty dsp 4 _ p3
  refine ⟨?_, ?_, ?_⟩
  · rw [b4, b3, b2, b1, b0]
  · rw [(renderSectionAt_runtime dsp 4 0 _).2.2.2.2.1,
        (renderSectionAt_runtime dsp 3 0 _).2.2.2.2.1,
        (renderSectionAt_runtime dsp 2 0 _).2.2.2.2.1,
        (renderSectionAt_runtime dsp 1 0 _).2.2.2.2.1,
        (renderSectionAt_runtime dsp 0 0 _).2.2.2.2.1]
  · rw [(renderSectionAt_runtime dsp 4 0 _).2.2.2.2.2,
        (renderSectionAt_runtime dsp 3 0 _).2.2.2.2.2,
        (renderSectionAt_runtime dsp 2 0 _).2.2.2.2.2,
        (renderSectionAt_runtime dsp 1 0 _).2.2.2.2.2,
        (renderSectionAt_runtime dsp 0 0 _).2.2.2.2.2]

theorem processBlock_unprepared (dsp : ExtDSP) (buffer : Buf)
    (midi : List TimedEvent) {st : EngineState} (hp : emptyPools st)
    (hc : st.convolution.prepared = false) (ho : st.oversamplerPrepared = false) :
    (processBlock dsp st buffer midi).2.1
      = List.replicate buffer.length ((0 : ℚ), (0 : ℚ)) := by
  have hsp : emptyPools (splitMidiBySection st midi).1 := by
    intro si
    show ((midi.foldl splitStep _).sectionRuntime si).pool = []
    rw [(foldl_splitStep_frame midi _ si).1]
    exact hp si
  have hsc : (splitMidiBySection st midi).1.convolution = st.convolution := by
    show (midi.foldl splitStep _).convolution = _
    exact (foldl_splitStep_frame midi _ 0).2.2.2.1
  have hso : (splitMidiBySection st midi).1.oversamplerPrepared
      = st.oversamplerPrepared := by
    show (midi.foldl splitStep _).oversamplerPrepared = _
    exact (foldl_splitStep_frame midi _ 0).2.2.2.2
  obtain ⟨hb, hcv, hov⟩ := renderChain_empty dsp
    ((splitMidiBySection st midi).1,
      beginOversampledBlock (splitMidiBySection st midi).1.oversamplerPrepared
        (buffer.map (fun _ => ((0 : ℚ), (0 : ℚ))))) hsp
  show endOversampledBlock dsp
      (renderSectionAt dsp 4 (renderSectionAt dsp 3 (renderSectionAt dsp 2
        (renderSectionAt dsp 1 (renderSectionAt dsp 0
          ((splitMidiBySection st midi).1,
           beginOversampledBlock (splitMidiBySection st midi).1.oversamplerPrepared
             (buffer.map (fun _ => ((0 : ℚ), (0 : ℚ)))))))))).1.oversamplerPrepared
      (ConvolutionEngine.process dsp
        (renderSectionAt dsp 4 (renderSectionAt dsp 3 (renderSectionAt dsp 2
          (renderSectionAt dsp 1 (renderSectionAt dsp 0
            ((splitMidiBySection st midi).1,
             beginOversampledBlock (splitMidiBySection st midi).1.oversamplerPrepared
               (buffer.map (fun _ => ((0 : ℚ), (0 : ℚ)))))))))).1.convolution
        (renderSectionAt dsp 4 (renderSectionAt dsp 3 (renderSectionAt dsp 2
          (renderSectionAt dsp 1 (renderSectionAt dsp 0
            ((splitMidiBySection st midi).1,
             beginOversampledBlock (splitMidiBySection st midi).1.oversamplerPrepared
               (buffer.map (fun _ => ((0 : ℚ), (0 : ℚ)))))))))).2)
      = List.replicate buffer.length ((0 : ℚ), (0 : ℚ))
  rw [hov, hcv, hb, hso, hsc, ho]
  simp only [beginOversampledBlock, endOversampledBlock, ite_self]
  rw [ConvolutionEngine.process, hc]
  simp only [Bool.false_eq_true, if_true, if_false, reduceIte]
  exact map_zero_eq_replicate buffer

/-- Claim C7: processBlock called on the never-prepared engine completes and
leaves the output buffer entirely silent (every sample (0,0)): no voice
renders (there are none before prepare()), and the convolution and
oversampling stages are no-ops while unprepared and tolerate an empty
block. -/
theorem C7_render_before_prepare (dsp : ExtDSP) (buffer : Buf)
    (midi : List TimedEvent) :
    (processBlock dsp initialEngine buffer midi).2.1
        = List.replicate buffer.length ((0 : ℚ), (0 : ℚ))
    ∧ (processBlock dsp initialEngine [] midi).2.1 = []
    ∧ (∀ (c : ConvolutionState) (buf : Buf), c.prepared = false →
        ConvolutionEngine.process dsp c buf = buf)
    ∧ (∀ c : ConvolutionState, c.irLoaded = false →
        ConvolutionEngine.process dsp c [] = [])
    ∧ (∀ buf : Buf, beginOversampledBlock false buf = buf
        ∧ endOversampledBlock dsp false buf = buf)
    ∧ (∀ b : Bool, beginOversampledBlock b [] = []
        ∧ endOversampledBlock dsp b [] = []) := by
  refine ⟨?_, ?_, ?_, ?_, ?_, ?_⟩
  · exact processBlock_unprepared dsp buffer midi (fun _ => rfl) rfl rfl
  · exact processBlock_unprepared dsp [] midi (fun _ => rfl) rfl rfl
  · intro c buf h
    rw [ConvolutionEngine.process, h]
    simp
  · intro c h
    rw [ConvolutionEngine.process, h]
    simp only [Bool.false_eq_true, if_false, ite_self]
  · intro buf
    exact ⟨rfl, rfl⟩
  · intro b
    constructor
    · simp [beginOversampledBlock]
    · simp [endOversampledBlock]

/-- Witness for C7: one concrete unprepared block with two samples and a
note-on in the stream still renders pure silence, and the stages tolerate
empty buffers. -/
theorem C7_render_before_prepare_witness :
    (processBlock trivDSP initialEngine [(5, 6), (7, 8)]
        [⟨.noteOn 1 60 1, 0⟩]).2.1 = List.replicate 2 ((0 : ℚ), (0 : ℚ))
    ∧ ConvolutionEngine.process trivDSP { prepared := false } [(1, 1)] = [(1, 1)]
    ∧ endOversampledBlock trivDSP true [] = [] := by
  have h := C7_render_before_prepare trivDSP [(5, 6), (7, 8)] [⟨.noteOn 1 60 1, 0⟩]
  exact ⟨h.1, h.2.2.1 { prepared := false } [(1, 1)] rfl, (h.2.2.2.2.2 true).2⟩

/-- Claim C9 (amended): serialise() produces, for each of the five sections,
one record retrievable under the stable key "strings", "brass", "woodwinds",
"percussion" or "choir", containing every SectionParams field; the
articulationIndex it stores is the stored SectionParams.articulationIndex,
not the live keyswitch-updated index. -/
theorem C9_serialise_section_records (st : EngineState) (si : Fin 5) :
    getChildWithName (serialiseToValueTree st) (sectionName si)
        = some (serialiseSection (st.sectionParams si) (sectionName si))
    ∧ lookupProp (serialiseSection (st.sectionParams si) (sectionName si))
        "maxVoices" = some (.vInt (st.sectionParams si).maxVoices)
    ∧ lookupProp (serialiseSection (st.sectionParams si) (sectionName si))
        "gain" = some (.vFloat (st.sectionParams si).gain)
    ∧ lookupProp (serialiseSection (st.sectionParams si) (sectionName si))
        "pan" = some (.vFloat (st.sectionParams si).pan)
    ∧ lookupProp (serialiseSection (st.sectionParams si) (sectionName si))
        "cutoff" = some (.vFloat (st.sectionParams si).cutoff)
    ∧ lookupProp (serialiseSection (st.sectionParams si) (sectionName si))
        "resonance" = some (.vFloat (st.sectionParams si).resonance)
    ∧ lookupProp (serialiseSection (st.sectionParams si) (sectionName si))
        "attackMs" = some (.vFloat (st.sectionParams si).attackMs)
    ∧ lookupProp (serialiseSection (st.sectionParams si) (sectionName si))
        "releaseMs" = some (.vFloat (st.sectionParams si).releaseMs)
    ∧ lookupProp (serialiseSection (st.sectionParams si) (sectionName si))
        "reverbSend" = some (.vFloat (st.sectionParams si).reverbSend)
    ∧ lookupProp (serialiseSection (st.sectionParams si) (sectionName si))
        "oversampleFactor"
        = some (.vFloat (st.sectionParams si).oversampleFactor)
    ∧ lookupProp (serialiseSection (st.sectionParams si) (sectionName si))
        "articulationIndex"
        = some (.vInt (st.sectionParams si).articulationIndex) := by
  refine ⟨?_, rfl, rfl, rfl, rfl, rfl, rfl, rfl, rfl, rfl, rfl⟩
  fin_cases si <;> rfl

/-- Counterexample to claim C9 as stated: after a keyswitch sets the strings
live articulation index to 2 while the stored SectionParams.articulationIndex
stays 0, serialise() writes articulationIndex 0 — the stored field, not the
live index the claim says is serialised. -/
theorem C9_live_index_not_serialised :
    SectionRuntime.currentArticulationIndex
        ((splitMidiBySection initialEngine
          [⟨.noteOn 1 26 1, 0⟩]).1.sectionRuntime (0 : Fin 5)) = 2
    ∧ (getChildWithName
        (serialiseToValueTree (splitMidiBySection initialEngine
          [⟨.noteOn 1 26 1, 0⟩]).1) "strings").map
        (fun c => lookupProp c "articulationIndex")
      = some (some (.vInt 0))
    ∧ (0 : ℤ) ≠ 2 := by
  refine ⟨?_, ?_, by decide⟩
  · rfl
  · rfl

theorem getD_eq_get {α : Type} [Inhabited α] (l : List α) (i : ℕ)
    (h : i < l.length) : l.getD i default = l.get ⟨i, h⟩ := by
  rw [List.getD_eq_getElem?_getD, List.getElem?_eq_getElem h]
  rfl

theorem getD_set_self {α : Type} [Inhabited α] (l : List α) (i : ℕ) (x : α)
    (h : i < l.length) : (l.set i x).getD i default = x := by
  rw [List.getD_eq_getElem?_getD,
      List.getElem?_eq_getElem (by simpa using h),
      List.getElem_set_self]
  rfl

theorem firstInactive_none_all {pool : List VoiceState}
    (h : firstInactive pool = none) : ∀ v ∈ pool, v.active = true := by
  induction pool with
  | nil =>
      intro v hv
      cases hv
  | cons w ws ih =>
      intro v hv
      unfold firstInactive at h
      by_cases hw : w.active = false
      · rw [if_pos hw] at h
        cases h
      · rw [if_neg hw] at h
        have h' : firstInactive ws = none := by
          cases hfi : firstInactive ws with
          | none => rfl
          | some j =>
              rw [hfi] at h
              cases h
        rcases List.mem_cons.1 hv with rfl | hv'
        · cases hact : v.active with
          | false => exact absurd hact hw
          | true => rfl
        · exact ih h' v hv'

theorem firstInactive_some_spec {pool : List VoiceState} {i : ℕ}
    (h : firstInactive pool = some i) :
    i < pool.length ∧ (pool.getD i default).active = false := by
  induction pool generalizing i with
  | nil => cases h
  | cons w ws ih =>
      unfold firstInactive at h
      by_cases hw : w.active = false
      · rw [if_pos hw] at h
        cases h
        exact ⟨Nat.succ_pos _, hw⟩
      · rw [if_neg hw] at h
        cases hfi : firstInactive ws with
        | none =>
            rw [hfi] at h
            cases h
        | some j =>
            rw [hfi] at h
            simp only [Option.map_some'] at h
            cases h
            obtain ⟨hj, hja⟩ := ih hfi
            exact ⟨Nat.succ_lt_succ hj, hja⟩

theorem stealFold_lt (vs : List VoiceState) : ∀ (i bi : ℕ) (bv : VoiceState),
    bi < i → stealFold i bi bv vs < i + vs.length := by
  induction vs with
  | nil =>
      intro i bi bv h
      simpa [stealFold] using h
  | cons w ws ih =>
      intro i bi bv h
      unfold stealFold
      split
      · have hrec := ih (i + 1) i w (Nat.lt_succ_self i)
        simp only [List.length_cons]
        omega
      · have hrec := ih (i + 1) bi bv (by omega)
        simp only [List.length_cons]
        omega

theorem stealIdx_lt {pool : List VoiceState} (h : pool ≠ []) :
    stealIdx pool < pool.length := by
  cases pool with
  | nil => exact absurd rfl h
  | cons v vs =>
      have hf := stealFold_lt vs 1 0 v (by omega)
      simp only [stealIdx, List.length_cons]
      omega

theorem length_poolNoteOn (dsp : ExtDSP) (p : SectionParams)
    (rt : SectionRuntime) (note : ℤ) (vel : ℚ) (pool : List VoiceState) :
    (poolNoteOn dsp p rt note vel pool).length = pool.length := by
  unfold poolNoteOn
  cases firstInactive pool <;> simp

theorem length_notesFold (dsp : ExtDSP) (p : SectionParams)
    (rt : SectionRuntime) (notes : List (ℤ × ℚ)) (pool : List VoiceState) :
    (notesFold dsp p rt notes pool).length = pool.length := by
  induction notes generalizing pool with
  | nil => rfl
  | cons nv rest ih =>
      show (notesFold dsp p rt rest (poolNoteOn dsp p rt nv.1 nv.2 pool)).length = _
      rw [ih, length_poolNoteOn]

theorem countActive_set (pool : List VoiceState) (i : ℕ) (v : VoiceState)
    (h : i < pool.length) :
    countActive (pool.set i v)
      = countActive pool - (if (pool.get ⟨i, h⟩).active then 1 else 0)
        + (if v.active then 1 else 0) := by
  unfold countActive
  rw [List.countP_set _ _ _ _ h]
  rfl

theorem countActive_lt_of_inactive {pool : List VoiceState} {i : ℕ}
    (h : i < pool.length) (ha : (pool.getD i default).active = false) :
    countActive pool < pool.length := by
  have hle : countActive pool ≤ pool.length := List.countP_le_length _
  rcases Nat.lt_or_ge (countActive pool) pool.length with hlt | hge
  · exact hlt
  · exfalso
    have heq : pool.countP (fun v => v.active) = pool.length :=
      Nat.le_antisymm hle hge
    have hall := List.countP_eq_length.1 heq
    have hmem : pool.get ⟨i, h⟩ ∈ pool := List.get_mem _ _ _
    have hact := hall _ hmem
    rw [getD_eq_get pool i h] at ha
    rw [ha] at hact
    cases hact

theorem countActive_poolNoteOn (dsp : ExtDSP) (p : SectionParams)
    (rt : SectionRuntime) (note : ℤ) (vel : ℚ) (pool : List VoiceState) :
    countActive (poolNoteOn dsp p rt note vel pool)
      = min (countActive pool + 1) pool.length := by
  unfold poolNoteOn
  cases hfi : firstInactive pool with
  | some i =>
      obtain ⟨hlt, hina⟩ := firstInactive_some_spec hfi
      rw [countActive_set _ _ _ hlt]
      rw [getD_eq_get pool i hlt] at hina
      rw [hina]
      have hcnt : countActive pool < pool.length :=
        countActive_lt_of_inactive hlt (by rw [getD_eq_get pool i hlt]; exact hina)
      have hsv : (startVoice dsp p (getCurrentArticulation rt) note vel
          (pool.getD i default)).active = true := rfl
      rw [hsv]
      simp only [Bool.false_eq_true, if_false, if_true]
      omega
  | none =>
      cases pool with
      | nil => rfl
      | cons v vs =>
          have hall := firstInactive_none_all hfi
          have hlt : stealIdx (v :: vs) < (v :: vs).length := stealIdx_lt (by simp)
          rw [countActive_set _ _ _ hlt]
          have hact : ((v :: vs).get ⟨stealIdx (v :: vs), hlt⟩).active = true :=
            hall _ (List.get_mem _ _ _)
          rw [hact]
          have hsv : (startVoice dsp p (getCurrentArticulation rt) note vel
              ((v :: vs).getD (stealIdx (v :: vs)) default)).active = true := rfl
          rw [hsv]
          have hfull : countActive (v :: vs) = (v :: vs).length :=
            List.countP_eq_length.2 hall
          simp only [if_true]
          omega

theorem countActive_replicate (n : ℕ) :
    countActive (List.replicate n (default : VoiceState)) = 0 := by
  unfold countActive
  rw [List.countP_replicate]
  rfl

theorem countActive_notesFold (dsp : ExtDSP) (p : SectionParams)
    (rt : SectionRuntime) (notes : List (ℤ × ℚ)) (pool : List VoiceState) :
    countActive (notesFold dsp p rt notes pool)
      = min (countActive pool + notes.length) pool.length := by
  induction notes generalizing pool with
  | nil =>
      show countActive pool = _
      have hle : countActive pool ≤ pool.length := List.countP_le_length _
      simp only [List.length_nil]
      omega
  | cons nv rest ih =>
      show countActive (notesFold dsp p rt rest (poolNoteOn dsp p rt nv.1 nv.2 pool)) = _
      rw [ih, countActive_poolNoteOn, length_poolNoteOn]
      have hle : countActive pool ≤ pool.length := List.countP_le_length _
      simp only [List.length_cons]
      omega

theorem poolNoteOn_new (dsp : ExtDSP) (p : SectionParams) (rt : SectionRuntime)
    (note : ℤ) (vel : ℚ) (pool : List VoiceState) (hne : pool ≠ []) :
    ∃ j, j < pool.length
      ∧ ((poolNoteOn dsp p rt note vel pool).getD j default).active = true
      ∧ ((poolNoteOn dsp p rt note vel pool).getD j default).currentMidiNote
          = note := by
  unfold poolNoteOn
  cases hfi : firstInactive pool with
  | some i =>
      obtain ⟨hlt, _⟩ := firstInactive_some_spec hfi
      refine ⟨i, hlt, ?_, ?_⟩ <;> rw [getD_set_self _ _ _ hlt] <;> rfl
  | none =>
      have hlt := stealIdx_lt hne
      refine ⟨stealIdx pool, hlt, ?_, ?_⟩ <;> rw [getD_set_self _ _ _ hlt] <;> rfl

/-- Claim C1: per-section voice capacity is 48 for Strings and 32 for the
other four sections, and prepare() builds exactly that many voices; under the
spec's note-on policy (free voice, else steal) the number of active voices
never exceeds the pool size; capacity + 1 simultaneous note-ons into an empty
pool leave exactly capacity voices active; and the newest note is never
dropped: after the last note-on some voice is active and holds that note. -/
theorem C1_capacity_and_stealing (dsp : ExtDSP) (p : SectionParams)
    (rt : SectionRuntime) (cap : ℕ) (hcap : 0 < cap)
    (notes : List (ℤ × ℚ)) (hn : notes.length = cap + 1)
    (sr : ℚ) (bs : ℤ) :
    ((initialEngine.sectionParams 0).maxVoices = 48
      ∧ (initialEngine.sectionParams 1).maxVoices = 32
      ∧ (initialEngine.sectionParams 2).maxVoices = 32
      ∧ (initialEngine.sectionParams 3).maxVoices = 32
      ∧ (initialEngine.sectionParams 4).maxVoices = 32)
    ∧ (∀ si : Fin 5,
        ((prepareEngine sr bs initialEngine).sectionRuntime si).pool.length
          = ((initialEngine.sectionParams si).maxVoices).toNat)
    ∧ (∀ pool : List VoiceState,
        countActive (notesFold dsp p rt notes pool) ≤ pool.length)
    ∧ countActive (notesFold dsp p rt notes
        (List.replicate cap (default : VoiceState))) = cap
    ∧ (∀ (note : ℤ) (vel : ℚ), notes.getLast? = some (note, vel) →
        ∃ j, j < cap
          ∧ ((notesFold dsp p rt notes
              (List.replicate cap (default : VoiceState))).getD j
                default).active = true
          ∧ ((notesFold dsp p rt notes
              (List.replicate cap (default : VoiceState))).getD j
                default).currentMidiNote = note) := by
  refine ⟨⟨rfl, rfl, rfl, rfl, rfl⟩, ?_, ?_, ?_, ?_⟩
  · intro si
    show (List.replicate _ _).length = _
    simp
  · intro pool
    rw [countActive_notesFold]
    exact Nat.min_le_right _ _
  · rw [countActive_notesFold, countActive_replicate, List.length_replicate, hn]
    omega
  · intro note vel hlast
    obtain ⟨ys, hys⟩ := List.getLast?_eq_some_iff.1 hlast
    subst hys
    have hsplit : notesFold dsp p rt (ys ++ [(note, vel)])
        (List.replicate cap (default : VoiceState))
        = poolNoteOn dsp p rt note vel
            (notesFold dsp p rt ys (List.replicate cap (default : VoiceState))) := by
      unfold notesFold
      rw [List.foldl_append]
      rfl
    rw [hsplit]
    have hlen : (notesFold dsp p rt ys
        (List.replicate cap (default : VoiceState))).length = cap := by
      rw [length_notesFold, List.length_replicate]
    have hne : notesFold dsp p rt ys (List.replicate cap (default : VoiceState))
        ≠ [] := by
      intro hnil
      rw [hnil] at hlen
      simp at hlen
      omega
    obtain ⟨j, hj, ha, hb⟩ := poolNoteOn_new dsp p rt note vel _ hne
    rw [hlen] at hj
    exact ⟨j, hj, ha, hb⟩

/-- Witness for C1: three simultaneous note-ons into an empty two-voice pool
leave exactly two active voices, one of which sounds the newest note 67. -/
theorem C1_capacity_and_stealing_witness :
    countActive (notesFold trivDSP {} {} [(60, 1), (64, 1), (67, 1)]
      (List.replicate 2 (default : VoiceState))) = 2
    ∧ ∃ j, j < 2
        ∧ ((notesFold trivDSP {} {} [(60, 1), (64, 1), (67, 1)]
            (List.replicate 2 (default : VoiceState))).getD j
              default).active = true
        ∧ ((notesFold trivDSP {} {} [(60, 1), (64, 1), (67, 1)]
            (List.replicate 2 (default : VoiceState))).getD j
              default).currentMidiNote = 67 := by
  have h := C1_capacity_and_stealing trivDSP {} {} 2 (by decide)
    [(60, 1), (64, 1), (67, 1)] (by decide) 44100 512
  exact ⟨h.2.2.2.1, h.2.2.2.2 67 1 rfl⟩

theorem voiceMono_eq_spec (dsp : ExtDSP) (note : ℤ) (sr phase : ℚ)
    (numSamples : ℕ) :
    voiceMono dsp (dsp.midiHz note) sr phase numSamples
      = specMonoBuffer dsp note sr phase numSamples := by
  unfold voiceMono specMonoBuffer
  apply List.map_congr_left
  intro n _
  ring

theorem length_applyEnvFrom (env : ℕ → ℚ) :
    ∀ (k : ℕ) (l : List ℚ), (applyEnvFrom env k l).length = l.length := by
  intro k l
  induction l generalizing k with
  | nil => rfl
  | cons a rest ih => simp [applyEnvFrom, ih]

theorem applyEnvFrom_getD (env : ℕ → ℚ) (l : List ℚ) : ∀ (k n : ℕ),
    n < l.length →
    (applyEnvFrom env k l).getD n 0 = l.getD n 0 * env (k + n) := by
  induction l with
  | nil =>
      intro k n h
      simp at h
  | cons a rest ih =>
      intro k n h
      cases n with
      | zero => rfl
      | succ m =>
          show (applyEnvFrom env (k + 1) rest).getD m 0 = _
          rw [ih (k + 1) m (by simpa using h)]
          rw [show k + 1 + m = k + (m + 1) by omega]
          rfl

theorem accumulateSamples_getD (level panL panR : ℚ) (ss : List ℚ) (out : Buf) :
    ∀ n : ℕ, n < out.length → n < ss.length →
    (accumulateSamples level panL panR ss out).getD n (0, 0)
      = ((out.getD n (0, 0)).1 + ss.getD n 0 * level * panL,
         (out.getD n (0, 0)).2 + ss.getD n 0 * level * panR) := by
  induction ss generalizing out with
  | nil =>
      intro n h1 h2
      simp at h2
  | cons s rest ih =>
      intro n h1 h2
      cases out with
      | nil => simp at h1
      | cons lr tail =>
          cases n with
          | zero => rfl
          | succ m =>
              show (accumulateSamples level panL panR rest tail).getD m (0, 0) = _
              rw [ih tail m (by simpa using h1) (by simpa using h2)]
              rfl

theorem renderNextBlock_active_eq (dsp : ExtDSP) (p : SectionParams)
    (art : ArticulationParams) (note : ℤ) (vel : ℚ) (v0 : VoiceState)
    (hsr : 0 < v0.sampleRate) (out : Buf)
    (hact : dsp.adsrActiveAfter (startVoice dsp p art note vel v0) out.length
        = true) :
    SectionVoice.renderNextBlock dsp (startVoice dsp p art note vel v0) out
      = ({ startVoice dsp p art note vel v0 with
            phase := v0.phase + (out.length : ℚ) },
         accumulateSamples (p.gain * jlimitQ 0 1 vel)
           (dsp.cosF ((jlimitQ (-1) 1 p.pan + 1) * dsp.halfPi * (1/2)))
           (dsp.sinF ((jlimitQ (-1) 1 p.pan + 1) * dsp.halfPi * (1/2)))
           (applyEnvFrom (dsp.envF (startVoice dsp p art note vel v0)) 0
             (dsp.filterF art.filterCutoff art.filterResonance
               (voiceMono dsp (dsp.midiHz note) v0.sampleRate v0.phase
                 out.length)))
           out) := by
  have hactive : (startVoice dsp p art note vel v0).active = true := rfl
  unfold SectionVoice.renderNextBlock
  rw [if_neg (show ¬ ((startVoice dsp p art note vel v0).active = false) by
        rw [hactive]; decide)]
  rw [if_pos (show 0 < (startVoice dsp p art note vel v0).sampleRate from hsr)]
  rw [if_neg (show ¬ (dsp.adsrActiveAfter (startVoice dsp p art note vel v0)
        out.length = false) by rw [hact]; decide)]
  rfl

/-- Claim C4: for an active voice started by startNote, the rendered block
adds into each output sample the per-voice signal: the average of two sine
partials at frequencies f and 1.01 f (f the voice-note frequency from the
MIDI-note table), filtered by the lowpass configured from the articulation
preset's cutoff and resonance, multiplied by the ADSR envelope value for
that sample and by the level (sectionGain * clamp(velocity, 0, 1)) and pan
gains precomputed at note-on; the voice renders into its own temporary
buffer and is then summed into the output. -/
theorem C4_voice_render_formula (dsp : ExtDSP)
    (hf : ∀ (c r : ℚ) (l : List ℚ), (dsp.filterF c r l).length = l.length)
    (p : SectionParams) (art : ArticulationParams) (note : ℤ) (vel : ℚ)
    (v0 : VoiceState) (hsr : 0 < v0.sampleRate) (out : Buf) (n : ℕ)
    (hn : n < out.length)
    (hact : dsp.adsrActiveAfter (startVoice dsp p art note vel v0) out.length
        = true) :
    ((SectionVoice.renderNextBlock dsp (startVoice dsp p art note vel v0)
        out).2.getD n (0, 0)).1
      = (out.getD n (0, 0)).1
        + ((dsp.filterF art.filterCutoff art.filterResonance
              (specMonoBuffer dsp note v0.sampleRate v0.phase
                out.length)).getD n 0
            * dsp.envF (startVoice dsp p art note vel v0) n)
          * (p.gain * jlimitQ 0 1 vel)
          * dsp.cosF ((jlimitQ (-1) 1 p.pan + 1) * dsp.halfPi * (1/2))
    ∧ ((SectionVoice.renderNextBlock dsp (startVoice dsp p art note vel v0)
        out).2.getD n (0, 0)).2
      = (out.getD n (0, 0)).2
        + ((dsp.filterF art.filterCutoff art.filterResonance
              (specMonoBuffer dsp note v0.sampleRate v0.phase
                out.length)).getD n 0
            * dsp.envF (startVoice dsp p art note vel v0) n)
          * (p.gain * jlimitQ 0 1 vel)
          * dsp.sinF ((jlimitQ (-1) 1 p.pan + 1) * dsp.halfPi * (1/2)) := by
  rw [renderNextBlock_active_eq dsp p art note vel v0 hsr out hact,
      voiceMono_eq_spec]
  have hlen1 : (dsp.filterF art.filterCutoff art.filterResonance
      (specMonoBuffer dsp note v0.sampleRate v0.phase out.length)).length
      = out.length := by
    rw [hf]
    simp only [specMonoBuffer, List.length_map, List.length_range]
  have hlen2 : (applyEnvFrom (dsp.envF (startVoice dsp p art note vel v0)) 0
      (dsp.filterF art.filterCutoff art.filterResonance
        (specMonoBuffer dsp note v0.sampleRate v0.phase out.length))).length
      = out.length := by
    rw [length_applyEnvFrom]
    exact hlen1
  rw [accumulateSamples_getD _ _ _ _ out n hn (by rw [hlen2]; exact hn)]
  rw [applyEnvFrom_getD _ _ 0 n (by rw [hlen1]; exact hn)]
  rw [Nat.zero_add]
  exact ⟨rfl, rfl⟩

/-- Witness for C4: the identity filter, unit envelope and identity
trigonometric functions on a one-sample buffer at note 60. -/
theorem C4_voice_render_formula_witness :
    ((SectionVoice.renderNextBlock trivDSP (startVoice trivDSP {} {} 60 1
        default) [((0 : ℚ), (0 : ℚ))]).2.getD 0 (0, 0)).1
      = (([((0 : ℚ), (0 : ℚ))].getD 0 (0, 0)).1
        + ((trivDSP.filterF ({} : ArticulationParams).filterCutoff
              ({} : ArticulationParams).filterResonance
              (specMonoBuffer trivDSP 60 (default : VoiceState).sampleRate
                (default : VoiceState).phase 1)).getD 0 0
            * trivDSP.envF (startVoice trivDSP {} {} 60 1 default) 0)
          * (({} : SectionParams).gain * jlimitQ 0 1 1)
          * trivDSP.cosF ((jlimitQ (-1) 1 ({} : SectionParams).pan + 1)
              * trivDSP.halfPi * (1/2))) :=
  (C4_voice_render_formula trivDSP (fun _ _ _ => rfl) {} {} 60 1 default
    (by decide) [((0 : ℚ), (0 : ℚ))] 0 (by decide) rfl).1
